import Mathlib

set_option maxRecDepth 4000

/-!
Verification of the gdk-pixbuf VTF image loader (`io-vtf.c`) against its
natural-language specification.

The C code is shallowly embedded: `unsigned int` (32-bit) arithmetic is
modelled on `Nat` with an explicit reduction `u32 := · % 2^32` at every
operation whose C counterpart is performed in `unsigned int`; `guchar`
buffer cells are modelled as `Nat` values reduced modulo 256 at each read.
Imperative pixel stores are modelled as `Nat → Option Nat` maps built by
folding the loops' write sequences, mirroring the loop structure of the
source.
-/

/-- 32-bit unsigned wrap-around, the semantics of C `unsigned int`. -/
def u32 (n : Nat) : Nat := n % 4294967296

/-- The fields of `VtfHeader` (io-vtf.c) that the decoder reads.
`signature` is kept as four raw byte fields; unread fields
(`headerSize`, `flags`, `firstFrame`, reflectivity, `bumpmapScale`,
low-res thumbnail fields) are omitted because no code path consults them. -/
structure VtfHeader where
  sig0 : Nat
  sig1 : Nat
  sig2 : Nat
  sig3 : Nat
  version0 : Nat
  version1 : Nat
  width : Nat
  height : Nat
  frames : Nat
  highResImageFormat : Nat
  mipmapCount : Nat
  depth : Nat
deriving DecidableEq

/-- Enum values from io-vtf.c (`IMAGE_FORMAT_NONE = -1`, then consecutive). -/
def IMAGE_FORMAT_RGBA8888 : Nat := 0
def IMAGE_FORMAT_ABGR8888 : Nat := 1
def IMAGE_FORMAT_RGB888 : Nat := 2
def IMAGE_FORMAT_BGR888 : Nat := 3
def IMAGE_FORMAT_RGB565 : Nat := 4
def IMAGE_FORMAT_I8 : Nat := 5
def IMAGE_FORMAT_IA88 : Nat := 6
def IMAGE_FORMAT_P8 : Nat := 7
def IMAGE_FORMAT_A8 : Nat := 8
def IMAGE_FORMAT_ARGB8888 : Nat := 11
def IMAGE_FORMAT_BGRA8888 : Nat := 12
def IMAGE_FORMAT_DXT1 : Nat := 13
def IMAGE_FORMAT_DXT3 : Nat := 14
def IMAGE_FORMAT_DXT5 : Nat := 15

/-- `vtf_mip_size` (io-vtf.c lines 131-158).  `mipLevel` is a C `uint`;
the shifts `width >> mipLevel` are Nat shifts (for `mipLevel < 32` this is
exactly the C behaviour; larger shift counts, which the program never
produces for real headers, are undefined in C and total, yielding 0, here).
The products are `unsigned int` products, hence the `u32` reductions. -/
def vtf_mip_size (header : VtfHeader) (mipLevel : Nat) (depth : Nat) : Nat :=
  let mipWidth0 := header.width >>> mipLevel
  let mipHeight0 := header.height >>> mipLevel
  let mipDepth0 := depth >>> mipLevel
  let mipWidth := if mipWidth0 < 1 then 1 else mipWidth0
  let mipHeight := if mipHeight0 < 1 then 1 else mipHeight0
  let mipDepth := if mipDepth0 < 1 then 1 else mipDepth0
  let bytes : Nat :=
    if header.highResImageFormat = IMAGE_FORMAT_RGBA8888 then u32 (mipWidth * mipHeight * 4)
    else if header.highResImageFormat = IMAGE_FORMAT_ABGR8888 then u32 (mipWidth * mipHeight * 4)
    else if header.highResImageFormat = IMAGE_FORMAT_RGB888 then u32 (mipWidth * mipHeight * 3)
    else if header.highResImageFormat = IMAGE_FORMAT_BGR888 then u32 (mipWidth * mipHeight * 3)
    else if header.highResImageFormat = IMAGE_FORMAT_RGB565 then u32 (mipWidth * mipHeight * 2)
    else if header.highResImageFormat = IMAGE_FORMAT_I8 then u32 (mipWidth * mipHeight * 1)
    else if header.highResImageFormat = IMAGE_FORMAT_IA88 then u32 (mipWidth * mipHeight * 2)
    else if header.highResImageFormat = IMAGE_FORMAT_A8 then u32 (mipWidth * mipHeight * 1)
    else if header.highResImageFormat = IMAGE_FORMAT_DXT1 then
      u32 (((mipWidth + 3) / 4) * ((mipHeight + 3) / 4) * 8)
    else if header.highResImageFormat = IMAGE_FORMAT_DXT5 then
      u32 (((mipWidth + 3) / 4) * ((mipHeight + 3) / 4) * 16)
    else if header.highResImageFormat = IMAGE_FORMAT_ARGB8888 then u32 (mipWidth * mipHeight * 4)
    else if header.highResImageFormat = IMAGE_FORMAT_BGRA8888 then u32 (mipWidth * mipHeight * 4)
    else 0
  u32 (bytes * mipDepth)

/-- `vtf_offset` (io-vtf.c lines 160-178).  The loop
`for (int i = mipmapCount - 1; i > mipLevel; i--)` accumulates
`vtf_mip_size` for the mip indices strictly above `mipLevel`, in
descending order (hence the `reverse`).  `facecount` is the local
constant 1.  For `mipLevel = -1` the two trailing `vtf_mip_size` calls are
modelled at level `Int.toNat (-1) = 0`; in C that call shifts by
`(uint)(-1)` (undefined), but its value is irrelevant: the only `-1` call
site is `vtf_offset(h, 0, 0, 0, -1)`, where both products are multiplied
by zero. -/
def vtf_offset (header : VtfHeader) (frame face slice : Nat) (mipLevel : Int) : Nat :=
  let facecount : Nat := 1
  let loopSum :=
    (((List.range header.mipmapCount).filter
        (fun (i : Nat) => decide (mipLevel < (i : Int)))).reverse).foldl
      (fun acc i => u32 (acc + vtf_mip_size header i header.depth)) 0
  let offset := u32 (loopSum * u32 (header.frames * facecount))
  let volume_bytes := vtf_mip_size header mipLevel.toNat header.depth
  let slice_bytes := vtf_mip_size header mipLevel.toNat 1
  let offset := u32 (offset + u32 (volume_bytes * u32 (frame * facecount + face)))
  u32 (offset + u32 (slice_bytes * slice))

/-- The per-mip byte cost exactly as claim C2 words it: per-slice cost
table times `mipDepth`, in unbounded arithmetic. -/
def claimMipCost (header : VtfHeader) (level depth : Nat) : Nat :=
  let mipWidth := max 1 (header.width >>> level)
  let mipHeight := max 1 (header.height >>> level)
  let mipDepth := max 1 (depth >>> level)
  let fmt := header.highResImageFormat
  let perSlice : Nat :=
    if fmt = IMAGE_FORMAT_RGBA8888 ∨ fmt = IMAGE_FORMAT_ABGR8888 ∨
       fmt = IMAGE_FORMAT_ARGB8888 ∨ fmt = IMAGE_FORMAT_BGRA8888 then
      mipWidth * mipHeight * 4
    else if fmt = IMAGE_FORMAT_RGB888 ∨ fmt = IMAGE_FORMAT_BGR888 then
      mipWidth * mipHeight * 3
    else if fmt = IMAGE_FORMAT_RGB565 ∨ fmt = IMAGE_FORMAT_IA88 then
      mipWidth * mipHeight * 2
    else if fmt = IMAGE_FORMAT_I8 ∨ fmt = IMAGE_FORMAT_A8 then
      mipWidth * mipHeight * 1
    else if fmt = IMAGE_FORMAT_DXT1 then
      ((mipWidth + 3) / 4) * ((mipHeight + 3) / 4) * 8
    else if fmt = IMAGE_FORMAT_DXT5 then
      ((mipWidth + 3) / 4) * ((mipHeight + 3) / 4) * 16
    else 0
  perSlice * mipDepth

/-- The sum of `vtf_mip_size` over all mip indices strictly above
`mipLevel` (unbounded arithmetic). -/
def mipSuffixSum (header : VtfHeader) (mipLevel : Int) : Nat :=
  (((List.range header.mipmapCount).filter
      (fun (i : Nat) => decide (mipLevel < (i : Int)))).map
    (fun i => vtf_mip_size header i header.depth)).sum

/-- Total byte length of the high-resolution region:
`frames` copies of every mip level. -/
def totalRegion (header : VtfHeader) : Nat :=
  header.frames * mipSuffixSum header (-1)

/-- The offset formula exactly as claim C1 words it (for non-negative mip
levels), in unbounded arithmetic. -/
def claimOffsetFormula (header : VtfHeader) (frame face slice mip : Nat) : Nat :=
  mipSuffixSum header (mip : Int) * (header.frames * 1)
    + vtf_mip_size header mip header.depth * (frame * 1 + face)
    + vtf_mip_size header mip 1 * slice

/-- Concrete header used to refute the unbounded-arithmetic reading of
claim C1: 16384x16384 RGBA8888, 2 mips, 13 frames.  All fields are in
range for the binary header format (width a power of two below 2^16). -/
def c1Header : VtfHeader :=
  { sig0 := 86, sig1 := 84, sig2 := 70, sig3 := 0
    version0 := 7, version1 := 2
    width := 16384, height := 16384
    frames := 13
    highResImageFormat := IMAGE_FORMAT_RGBA8888
    mipmapCount := 2
    depth := 1 }

/-- Concrete header used to refute the unbounded-arithmetic reading of
claim C2: a 32768x32768 RGBA8888 texture (both dimensions powers of two,
in `unsigned short` range) whose top mip costs exactly 2^32 bytes. -/
def c2Header : VtfHeader :=
  { sig0 := 86, sig1 := 84, sig2 := 70, sig3 := 0
    version0 := 7, version1 := 2
    width := 32768, height := 32768
    frames := 1
    highResImageFormat := IMAGE_FORMAT_RGBA8888
    mipmapCount := 1
    depth := 1 }

/-- Small header used as witness input for claim C1: 4x4 RGBA8888,
2 mips, 2 frames; no 32-bit overflow anywhere. -/
def c1WitnessHeader : VtfHeader :=
  { sig0 := 86, sig1 := 84, sig2 := 70, sig3 := 0
    version0 := 7, version1 := 2
    width := 4, height := 4
    frames := 2
    highResImageFormat := IMAGE_FORMAT_RGBA8888
    mipmapCount := 2
    depth := 1 }

/-! ## Pixel stores and the frame decoder -/

/-- A pixel store: the written bytes of a `GdkPixbuf` pixel buffer,
indexed by byte offset.  `none` marks bytes never written (the pixbuf
memory is uninitialised in the C code). -/
def Store : Type := Nat → Option Nat

def emptyStore : Store := fun _ => none

/-- `pixels[idx] = v`. -/
def writeStore (s : Store) (idx v : Nat) : Store :=
  fun k => if k = idx then some v else s k

/-- Apply a sequence of writes `(index, value)` left to right (later
writes win). -/
def applyWrites (l : List (Nat × Nat)) (s : Store) : Store :=
  l.foldl (fun s p => writeStore s p.1 p.2) s

/-- One `guchar` read: buffer cells hold byte values 0..255. -/
def byteRead (buf : Nat → Nat) (p : Nat) : Nat := buf p % 256

/-- The row-major traversal `for i < hgt { for j < wdt { ... } }` of the
decode loops. -/
def rowMajor (hgt wdt : Nat) : List (Nat × Nat) :=
  (List.range hgt).flatMap (fun i => (List.range wdt).map (fun j => (i, j)))

/-- Fold a list of loop iterations, each consuming `B` input bytes at the
running position `st.1` and performing the writes `W e st.1`.  This is the
shape of every per-pixel / per-block loop in `gdk_pixbuf__vtf_load_frame`:
the body reads `buffer[pos++]` exactly `B` times and stores into
`pixels[...]`. -/
def runWriterAux (B : Nat) (W : Nat × Nat → Nat → List (Nat × Nat))
    (l : List (Nat × Nat)) (st : Nat × Store) : Nat × Store :=
  l.foldl (fun st e => (st.1 + B, applyWrites (W e st.1) st.2)) st

def runWriter (B : Nat) (W : Nat × Nat → Nat → List (Nat × Nat))
    (l : List (Nat × Nat)) (pos : Nat) : Store :=
  (runWriterAux B W l (pos, emptyStore)).2

/-- Rowstride of an 8-bit `GdkPixbuf`.  Modelled from the gdk-pixbuf
library (an external collaborator of this plugin):
`gdk_pixbuf_get_rowstride` returns `channels * width` rounded up to a
multiple of 4. -/
def gdkRowstride (channels width : Nat) : Nat :=
  ((channels * width + 3) / 4) * 4

/-- 5-bit field expansion `(v << 3) | (v >> 5)` (io-vtf.c, RGB565/DXT). -/
def expand5 (v : Nat) : Nat := (v <<< 3) ||| (v >>> 5)

/-- 6-bit field expansion `(v << 2) | (v >> 6)` (io-vtf.c, RGB565/DXT). -/
def expand6 (v : Nat) : Nat := (v <<< 2) ||| (v >>> 6)

/-- RGBA8888 loop body (io-vtf.c lines 189-195). -/
def wRGBA8888 (stride : Nat) (buf : Nat → Nat) (e : Nat × Nat) (pos : Nat) :
    List (Nat × Nat) :=
  let q := stride * e.1 + 4 * e.2
  [(q + 0, byteRead buf pos), (q + 1, byteRead buf (pos + 1)),
   (q + 2, byteRead buf (pos + 2)), (q + 3, byteRead buf (pos + 3))]

/-- ABGR8888 loop body (io-vtf.c lines 200-206): bytes go to channels
3, 2, 1, 0 in read order. -/
def wABGR8888 (stride : Nat) (buf : Nat → Nat) (e : Nat × Nat) (pos : Nat) :
    List (Nat × Nat) :=
  let q := stride * e.1 + 4 * e.2
  [(q + 3, byteRead buf pos), (q + 2, byteRead buf (pos + 1)),
   (q + 1, byteRead buf (pos + 2)), (q + 0, byteRead buf (pos + 3))]

/-- RGB888 loop body (io-vtf.c lines 211-216), 3 output channels. -/
def wRGB888 (stride : Nat) (buf : Nat → Nat) (e : Nat × Nat) (pos : Nat) :
    List (Nat × Nat) :=
  let q := stride * e.1 + 3 * e.2
  [(q + 0, byteRead buf pos), (q + 1, byteRead buf (pos + 1)),
   (q + 2, byteRead buf (pos + 2))]

/-- BGR888 loop body (io-vtf.c lines 221-226). -/
def wBGR888 (stride : Nat) (buf : Nat → Nat) (e : Nat × Nat) (pos : Nat) :
    List (Nat × Nat) :=
  let q := stride * e.1 + 3 * e.2
  [(q + 2, byteRead buf pos), (q + 1, byteRead buf (pos + 1)),
   (q + 0, byteRead buf (pos + 2))]

/-- RGB565 loop body (io-vtf.c lines 231-247): one little-endian 16-bit
value, 5/6/5 fields expanded to 8 bits. -/
def wRGB565 (stride : Nat) (buf : Nat → Nat) (e : Nat × Nat) (pos : Nat) :
    List (Nat × Nat) :=
  let q := stride * e.1 + 3 * e.2
  let c0 := byteRead buf pos ||| byteRead buf (pos + 1) <<< 8
  [(q + 0, expand5 ((c0 >>> 11) &&& 31)),
   (q + 1, expand6 ((c0 >>> 5) &&& 63)),
   (q + 2, expand5 ((c0 >>> 0) &&& 31))]

/-- I8 loop body (io-vtf.c lines 252-259): luminance replicated. -/
def wI8 (stride : Nat) (buf : Nat → Nat) (e : Nat × Nat) (pos : Nat) :
    List (Nat × Nat) :=
  let q := stride * e.1 + 3 * e.2
  let v := byteRead buf pos
  [(q + 0, v), (q + 1, v), (q + 2, v)]

/-- IA88 loop body (io-vtf.c lines 264-272). -/
def wIA88 (stride : Nat) (buf : Nat → Nat) (e : Nat × Nat) (pos : Nat) :
    List (Nat × Nat) :=
  let q := stride * e.1 + 4 * e.2
  let v := byteRead buf pos
  [(q + 0, v), (q + 1, v), (q + 2, v), (q + 3, byteRead buf (pos + 1))]

/-- A8 loop body (io-vtf.c lines 277-283). -/
def wA8 (stride : Nat) (buf : Nat → Nat) (e : Nat × Nat) (pos : Nat) :
    List (Nat × Nat) :=
  let q := stride * e.1 + 4 * e.2
  [(q + 0, 255), (q + 1, 255), (q + 2, 255), (q + 3, byteRead buf pos)]

structure RGBAQuad where
  r : Nat
  g : Nat
  b : Nat
  a : Nat
deriving DecidableEq

structure RGBTriple where
  r : Nat
  g : Nat
  b : Nat
deriving DecidableEq

/-- The four-entry DXT1 palette (io-vtf.c lines 296-336): the array fills
of `r[4]`, `g[4]`, `b[4]`, `a[4]`, rendered as an index function. -/
def dxt1ColorPalette (c0 c1 : Nat) (k : Nat) : RGBAQuad :=
  let r0 := expand5 ((c0 >>> 11) &&& 31)
  let g0 := expand6 ((c0 >>> 5) &&& 63)
  let b0 := expand5 ((c0 >>> 0) &&& 31)
  let r1 := expand5 ((c1 >>> 11) &&& 31)
  let g1 := expand6 ((c1 >>> 5) &&& 63)
  let b1 := expand5 ((c1 >>> 0) &&& 31)
  if c0 > c1 then
    match k with
    | 0 => ⟨r0, g0, b0, 255⟩
    | 1 => ⟨r1, g1, b1, 255⟩
    | 2 => ⟨(4 * r0 + 2 * r1 + 3) / 6, (4 * g0 + 2 * g1 + 3) / 6,
            (4 * b0 + 2 * b1 + 3) / 6, 255⟩
    | _ => ⟨(2 * r0 + 4 * r1 + 3) / 6, (2 * g0 + 4 * g1 + 3) / 6,
            (2 * b0 + 4 * b1 + 3) / 6, 255⟩
  else
    match k with
    | 0 => ⟨r0, g0, b0, 255⟩
    | 1 => ⟨r1, g1, b1, 255⟩
    | 2 => ⟨(r0 + r1 + 1) / 2, (g0 + g1 + 1) / 2, (b0 + b1 + 1) / 2, 255⟩
    | _ => ⟨0, 0, 0, 0⟩

/-- The four-entry DXT5 color sub-block palette (io-vtf.c lines 403-425):
always the opaque interpolation, no `c0 > c1` comparison, no alpha. -/
def dxt5ColorPalette (c0 c1 : Nat) (k : Nat) : RGBTriple :=
  let r0 := expand5 ((c0 >>> 11) &&& 31)
  let g0 := expand6 ((c0 >>> 5) &&& 63)
  let b0 := expand5 ((c0 >>> 0) &&& 31)
  let r1 := expand5 ((c1 >>> 11) &&& 31)
  let g1 := expand6 ((c1 >>> 5) &&& 63)
  let b1 := expand5 ((c1 >>> 0) &&& 31)
  match k with
  | 0 => ⟨r0, g0, b0⟩
  | 1 => ⟨r1, g1, b1⟩
  | 2 => ⟨(4 * r0 + 2 * r1 + 3) / 6, (4 * g0 + 2 * g1 + 3) / 6,
          (4 * b0 + 2 * b1 + 3) / 6⟩
  | _ => ⟨(2 * r0 + 4 * r1 + 3) / 6, (2 * g0 + 4 * g1 + 3) / 6,
          (2 * b0 + 4 * b1 + 3) / 6⟩

/-- The eight-entry DXT5 alpha palette (io-vtf.c lines 361-380). -/
def dxt5Alpha (a0 a1 : Nat) (k : Nat) : Nat :=
  if a0 > a1 then
    match k with
    | 0 => a0
    | 1 => a1
    | 2 => (12 * a0 + 2 * a1 + 7) / 14
    | 3 => (10 * a0 + 4 * a1 + 7) / 14
    | 4 => (8 * a0 + 6 * a1 + 7) / 14
    | 5 => (6 * a0 + 8 * a1 + 7) / 14
    | 6 => (4 * a0 + 10 * a1 + 7) / 14
    | _ => (2 * a0 + 12 * a1 + 7) / 14
  else
    match k with
    | 0 => a0
    | 1 => a1
    | 2 => (8 * a0 + 2 * a1 + 5) / 10
    | 3 => (6 * a0 + 4 * a1 + 5) / 10
    | 4 => (4 * a0 + 6 * a1 + 5) / 10
    | 5 => (2 * a0 + 8 * a1 + 5) / 10
    | 6 => 0
    | _ => 255

/-- DXT1 block body (io-vtf.c lines 290-351).  `e` is the block origin
`(i, j)`; the running 2-bit selector shift is rendered as an explicit
shift by twice the pixel rank `4*ii + jj`. -/
def wDXT1 (stride : Nat) (buf : Nat → Nat) (e : Nat × Nat) (pos : Nat) :
    List (Nat × Nat) :=
  let c0 := byteRead buf pos ||| byteRead buf (pos + 1) <<< 8
  let c1 := byteRead buf (pos + 2) ||| byteRead buf (pos + 3) <<< 8
  let sel := byteRead buf (pos + 4) ||| byteRead buf (pos + 5) <<< 8 |||
    byteRead buf (pos + 6) <<< 16 ||| byteRead buf (pos + 7) <<< 24
  (rowMajor 4 4).flatMap (fun p =>
    let q := stride * (e.1 + p.1) + 4 * (e.2 + p.2)
    let c := dxt1ColorPalette c0 c1 ((sel >>> (2 * (4 * p.1 + p.2))) &&& 3)
    [(q + 0, c.r), (q + 1, c.g), (q + 2, c.b), (q + 3, c.a)])

/-- DXT5 block body (io-vtf.c lines 359-441): the alpha sub-block (8
bytes) writes only channel 3, then the color sub-block (8 bytes) writes
channels 0-2. -/
def wDXT5 (stride : Nat) (buf : Nat → Nat) (e : Nat × Nat) (pos : Nat) :
    List (Nat × Nat) :=
  let a0 := byteRead buf pos
  let a1 := byteRead buf (pos + 1)
  let asel := byteRead buf (pos + 2) ||| byteRead buf (pos + 3) <<< 8 |||
    byteRead buf (pos + 4) <<< 16 ||| byteRead buf (pos + 5) <<< 24 |||
    byteRead buf (pos + 6) <<< 32 ||| byteRead buf (pos + 7) <<< 40
  let alphaWrites := (rowMajor 4 4).flatMap (fun p =>
    [(stride * (e.1 + p.1) + 4 * (e.2 + p.2) + 3,
      dxt5Alpha a0 a1 ((asel >>> (3 * (4 * p.1 + p.2))) &&& 7))])
  let c0 := byteRead buf (pos + 8) ||| byteRead buf (pos + 9) <<< 8
  let c1 := byteRead buf (pos + 10) ||| byteRead buf (pos + 11) <<< 8
  let csel := byteRead buf (pos + 12) ||| byteRead buf (pos + 13) <<< 8 |||
    byteRead buf (pos + 14) <<< 16 ||| byteRead buf (pos + 15) <<< 24
  let colorWrites := (rowMajor 4 4).flatMap (fun p =>
    let q := stride * (e.1 + p.1) + 4 * (e.2 + p.2)
    let c := dxt5ColorPalette c0 c1 ((csel >>> (2 * (4 * p.1 + p.2))) &&& 3)
    [(q + 0, c.r), (q + 1, c.g), (q + 2, c.b)])
  alphaWrites ++ colorWrites

/-- ARGB8888 loop body (io-vtf.c lines 447-453): the four consecutive
bytes are stored into channels 1, 2, 3, 0 in read order. -/
def wARGB8888 (stride : Nat) (buf : Nat → Nat) (e : Nat × Nat) (pos : Nat) :
    List (Nat × Nat) :=
  let q := stride * e.1 + 4 * e.2
  [(q + 1, byteRead buf pos), (q + 2, byteRead buf (pos + 1)),
   (q + 3, byteRead buf (pos + 2)), (q + 0, byteRead buf (pos + 3))]

/-- BGRA8888 loop body (io-vtf.c lines 458-464). -/
def wBGRA8888 (stride : Nat) (buf : Nat → Nat) (e : Nat × Nat) (pos : Nat) :
    List (Nat × Nat) :=
  let q := stride * e.1 + 4 * e.2
  [(q + 2, byteRead buf pos), (q + 1, byteRead buf (pos + 1)),
   (q + 0, byteRead buf (pos + 2)), (q + 3, byteRead buf (pos + 3))]

/-- Block origins visited by the DXT loops
`for (i = 0; i < height; i += 4) for (j = 0; j < width; j += 4)`. -/
def blockOrigins (hgt wdt : Nat) : List (Nat × Nat) :=
  (rowMajor ((hgt + 3) / 4) ((wdt + 3) / 4)).map (fun p => (4 * p.1, 4 * p.2))

/-- A decoded frame: the `gdk_pixbuf_new` parameters plus the pixel
store. -/
structure VtfFrame where
  hasAlpha : Bool
  width : Nat
  height : Nat
  pixels : Store

inductive LoadFrameResult where
  | ok (frame : VtfFrame)
  | unsupported (fmt : Nat)

/-- `gdk_pixbuf__vtf_load_frame` (io-vtf.c lines 180-476): the sequential
format dispatch.  Each branch runs its loop over the row-major pixel list
(or block-origin list for DXT) with the branch's bytes-per-iteration and
write sequence; the final `else` prints the format value and sets the
error (modelled by the `unsupported` result, consumed by the caller). -/
def gdk_pixbuf__vtf_load_frame (h : VtfHeader) (buf : Nat → Nat) (pos : Nat) :
    LoadFrameResult :=
  if h.highResImageFormat = IMAGE_FORMAT_RGBA8888 then
    .ok ⟨true, h.width, h.height,
      runWriter 4 (wRGBA8888 (gdkRowstride 4 h.width) buf) (rowMajor h.height h.width) pos⟩
  else if h.highResImageFormat = IMAGE_FORMAT_ABGR8888 then
    .ok ⟨true, h.width, h.height,
      runWriter 4 (wABGR8888 (gdkRowstride 4 h.width) buf) (rowMajor h.height h.width) pos⟩
  else if h.highResImageFormat = IMAGE_FORMAT_RGB888 then
    .ok ⟨false, h.width, h.height,
      runWriter 3 (wRGB888 (gdkRowstride 3 h.width) buf) (rowMajor h.height h.width) pos⟩
  else if h.highResImageFormat = IMAGE_FORMAT_BGR888 then
    .ok ⟨false, h.width, h.height,
      runWriter 3 (wBGR888 (gdkRowstride 3 h.width) buf) (rowMajor h.height h.width) pos⟩
  else if h.highResImageFormat = IMAGE_FORMAT_RGB565 then
    .ok ⟨false, h.width, h.height,
      runWriter 2 (wRGB565 (gdkRowstride 3 h.width) buf) (rowMajor h.height h.width) pos⟩
  else if h.highResImageFormat = IMAGE_FORMAT_I8 then
    .ok ⟨false, h.width, h.height,
      runWriter 1 (wI8 (gdkRowstride 3 h.width) buf) (rowMajor h.height h.width) pos⟩
  else if h.highResImageFormat = IMAGE_FORMAT_IA88 then
    .ok ⟨true, h.width, h.height,
      runWriter 2 (wIA88 (gdkRowstride 4 h.width) buf) (rowMajor h.height h.width) pos⟩
  else if h.highResImageFormat = IMAGE_FORMAT_A8 then
    .ok ⟨true, h.width, h.height,
      runWriter 1 (wA8 (gdkRowstride 4 h.width) buf) (rowMajor h.height h.width) pos⟩
  else if h.highResImageFormat = IMAGE_FORMAT_DXT1 then
    .ok ⟨true, h.width, h.height,
      runWriter 8 (wDXT1 (gdkRowstride 4 h.width) buf) (blockOrigins h.height h.width) pos⟩
  else if h.highResImageFormat = IMAGE_FORMAT_DXT5 then
    .ok ⟨true, h.width, h.height,
      runWriter 16 (wDXT5 (gdkRowstride 4 h.width) buf) (blockOrigins h.height h.width) pos⟩
  else if h.highResImageFormat = IMAGE_FORMAT_ARGB8888 then
    .ok ⟨true, h.width, h.height,
      runWriter 4 (wARGB8888 (gdkRowstride 4 h.width) buf) (rowMajor h.height h.width) pos⟩
  else if h.highResImageFormat = IMAGE_FORMAT_BGRA8888 then
    .ok ⟨true, h.width, h.height,
      runWriter 4 (wBGRA8888 (gdkRowstride 4 h.width) buf) (rowMajor h.height h.width) pos⟩
  else
    .unsupported h.highResImageFormat

/-- The pixel store of a frame decode result (`emptyStore` on failure:
the C function returns NULL and no pixbuf exists). -/
def framePixels (r : LoadFrameResult) : Store :=
  match r with
  | .ok f => f.pixels
  | .unsupported _ => emptyStore

/-- The formats for which `gdk_pixbuf__vtf_load_frame` has a decode
branch. -/
def supportedVtfFormat (fmt : Nat) : Bool :=
  (fmt == IMAGE_FORMAT_RGBA8888) || (fmt == IMAGE_FORMAT_ABGR8888) ||
  (fmt == IMAGE_FORMAT_RGB888) || (fmt == IMAGE_FORMAT_BGR888) ||
  (fmt == IMAGE_FORMAT_RGB565) || (fmt == IMAGE_FORMAT_I8) ||
  (fmt == IMAGE_FORMAT_IA88) || (fmt == IMAGE_FORMAT_A8) ||
  (fmt == IMAGE_FORMAT_DXT1) || (fmt == IMAGE_FORMAT_DXT5) ||
  (fmt == IMAGE_FORMAT_ARGB8888) || (fmt == IMAGE_FORMAT_BGRA8888)

/-- Little-endian 16-bit value of two consecutive buffer bytes, as the
claims word it. -/
def le16 (buf : Nat → Nat) (p : Nat) : Nat := buf p + buf (p + 1) * 256

/-- Little-endian 32-bit value of four consecutive buffer bytes. -/
def le32 (buf : Nat → Nat) (p : Nat) : Nat :=
  buf p + buf (p + 1) * 256 + buf (p + 2) * 65536 + buf (p + 3) * 16777216

/-- Little-endian 48-bit value of six consecutive buffer bytes. -/
def le48 (buf : Nat → Nat) (p : Nat) : Nat :=
  buf p + buf (p + 1) * 256 + buf (p + 2) * 65536 + buf (p + 3) * 16777216
    + buf (p + 4) * 4294967296 + buf (p + 5) * 1099511627776

/-- Channel projection of an RGBA palette entry (0 = R, 1 = G, 2 = B,
3 = A). -/
def rgbaChannel (c : RGBAQuad) (ch : Nat) : Nat :=
  match ch with
  | 0 => c.r
  | 1 => c.g
  | 2 => c.b
  | _ => c.a

/-- Channel projection of an RGB palette entry. -/
def rgbChannel (c : RGBTriple) (ch : Nat) : Nat :=
  match ch with
  | 0 => c.r
  | 1 => c.g
  | _ => c.b

/-- Header of a 1x1 single-frame ARGB8888 texture, the failing input for
claim C8. -/
def c8Header : VtfHeader :=
  { sig0 := 86, sig1 := 84, sig2 := 70, sig3 := 0
    version0 := 7, version1 := 2
    width := 1, height := 1
    frames := 1
    highResImageFormat := IMAGE_FORMAT_ARGB8888
    mipmapCount := 1
    depth := 1 }

/-- Pixel bytes for the claim C8 failing input: A=1, R=2, G=3, B=4. -/
def c8Buf : Nat → Nat := fun i => [1, 2, 3, 4].getD i 0

/-- Header of a 4x4 single-frame DXT1 texture (witness input for C4). -/
def c4WitnessHeader : VtfHeader :=
  { sig0 := 86, sig1 := 84, sig2 := 70, sig3 := 0
    version0 := 7, version1 := 2
    width := 4, height := 4
    frames := 1
    highResImageFormat := IMAGE_FORMAT_DXT1
    mipmapCount := 1
    depth := 1 }

/-- Header of a 4x4 single-frame DXT5 texture (witness input for C5). -/
def c5WitnessHeader : VtfHeader :=
  { sig0 := 86, sig1 := 84, sig2 := 70, sig3 := 0
    version0 := 7, version1 := 2
    width := 4, height := 4
    frames := 1
    highResImageFormat := IMAGE_FORMAT_DXT5
    mipmapCount := 1
    depth := 1 }

/-- All-zero input buffer (witness inputs). -/
def zeroBuf : Nat → Nat := fun _ => 0

/-! ## Header parsing and stop_load -/

/-- One byte of the accumulated input buffer (reads beyond the data are
modelled as 0; in C they read unspecified heap memory). -/
def byteAtL (b : List Nat) (i : Nat) : Nat := b.getD i 0 % 256

def leU16 (b : List Nat) (i : Nat) : Nat := byteAtL b i + byteAtL b (i + 1) * 256

def leU32 (b : List Nat) (i : Nat) : Nat :=
  byteAtL b i + byteAtL b (i + 1) * 256 + byteAtL b (i + 2) * 65536
    + byteAtL b (i + 3) * 16777216

/-- `memcpy(&header, context->buffer, sizeof(header))` (io-vtf.c line
487) on a little-endian machine with the default x86-64 layout of
`VtfHeader`: signature at 0, version[0]/version[1] at 4/8, width 16,
height 18, frames 24, highResImageFormat 52, mipmapCount 56 and, after
3 bytes of alignment padding and the low-res thumbnail fields, depth at
66. -/
def parseVtfHeader (b : List Nat) : VtfHeader :=
  { sig0 := byteAtL b 0, sig1 := byteAtL b 1, sig2 := byteAtL b 2, sig3 := byteAtL b 3
    version0 := leU32 b 4, version1 := leU32 b 8
    width := leU16 b 16, height := leU16 b 18
    frames := leU16 b 24
    highResImageFormat := leU32 b 52
    mipmapCount := byteAtL b 56
    depth := leU16 b 66 }

/-- Depth normalisation (io-vtf.c lines 499-500): containers below
version 7.2 get `depth = 1`.  `version[0] * 256 + version[1]` is
`unsigned int` arithmetic; `0x0702 = 1794`. -/
def normalizeVtfHeader (h : VtfHeader) : VtfHeader :=
  if u32 (u32 (h.version0 * 256) + h.version1) < 1794 then { h with depth := 1 } else h

/-- The raw accumulated buffer as a byte source for the frame decoder. -/
def vtfBufFn (b : List Nat) : Nat → Nat := fun i => b.getD i 0

/-- Caller-observable events of `stop_load`: a frame finishing its decode,
and the `prepared_func` ("first frame ready") callback with the index of
the pixbuf it is handed. -/
inductive VtfEvent where
  | decoded (i : Nat)
  | prepared (i : Nat)
deriving DecidableEq

/-- A `GError` as the plugin fills it: the `GDK_PIXBUF_ERROR` code plus
the message string. -/
structure GdkError where
  code : Nat
  message : String
deriving DecidableEq

/-- From the gdk-pixbuf enum (external collaborator):
`GDK_PIXBUF_ERROR_CORRUPT_IMAGE = 0`. -/
def GDK_PIXBUF_ERROR_CORRUPT_IMAGE : Nat := 0

/-- The error set for a bad signature or zero frame count (io-vtf.c
lines 490-494). -/
def vtfCorruptError : GdkError :=
  ⟨GDK_PIXBUF_ERROR_CORRUPT_IMAGE, "File corrupt or incomplete"⟩

/-- The error set for an unsupported format (io-vtf.c lines 467-471) —
note: the same `GDK_PIXBUF_ERROR_CORRUPT_IMAGE` code, only the message
differs, and the numeric format value goes to `printf`, not here. -/
def vtfCantReadError : GdkError :=
  ⟨GDK_PIXBUF_ERROR_CORRUPT_IMAGE, "Can\x27t read this yet."⟩

/-- The outcome of `stop_load`: the returned gboolean, the `GError` (if
set), the frames held by the animation when it survives (empty when it is
unreffed or never created), the event trace, and the format values
printed to stdout. -/
structure StopLoadResult where
  retval : Bool
  error : Option GdkError
  frames : List VtfFrame
  events : List VtfEvent
  printed : List Nat

/-- The frame produced for index `i` (meaningful when the format is
supported, in which case `gdk_pixbuf__vtf_load_frame` always succeeds). -/
def vtfDecodedFrame (h : VtfHeader) (buf : Nat → Nat) (base i : Nat) : VtfFrame :=
  match gdk_pixbuf__vtf_load_frame h buf (u32 (base + vtf_offset h i 0 0 0)) with
  | .ok fr => fr
  | .unsupported _ => ⟨false, 0, 0, emptyStore⟩

/-- The frame loop of `stop_load` (io-vtf.c lines 508-520), processing
`n` remaining frames starting at index `i`.  A NULL frame (unsupported
format) unrefs the animation — no frames are delivered — with the error
set inside `load_frame` and the format value printed.  After a
successful frame the pixbuf is added to the animation and, for `i = 0`,
`prepared_func` fires with that pixbuf. -/
def vtfFrameLoop (h : VtfHeader) (buf : Nat → Nat) (base : Nat) :
    Nat → Nat → List VtfFrame × List VtfEvent × List Nat × Option GdkError
  | _, 0 => ([], [], [], none)
  | i, n + 1 =>
    match gdk_pixbuf__vtf_load_frame h buf (u32 (base + vtf_offset h i 0 0 0)) with
    | .unsupported fmt => ([], [], [fmt], some vtfCantReadError)
    | .ok frame =>
      let evts := VtfEvent.decoded i :: (if i = 0 then [VtfEvent.prepared 0] else [])
      match vtfFrameLoop h buf base (i + 1) n with
      | (_, es, ps, some e) => ([], evts ++ es, ps, some e)
      | (fs, es, ps, none) => (frame :: fs, evts ++ es, ps, none)

/-- `gdk_pixbuf__vtf_image_stop_load` (io-vtf.c lines 479-527) over the
accumulated input buffer.  The signature / zero-frames check comes first
(retval FALSE, corrupt-image error); otherwise the depth is normalised,
the total high-resolution length is `vtf_offset(h,0,0,0,-1)`, its start
is located by the wrapping 32-bit subtraction `buffer_data_size -
fulldata` — with no check that it fits — and the frame loop runs.
`retval` stays TRUE on that path even when a frame fails. -/
def gdk_pixbuf__vtf_image_stop_load (b : List Nat) : StopLoadResult :=
  let header := parseVtfHeader b
  if header.sig0 ≠ 86 ∨ header.sig1 ≠ 84 ∨ header.sig2 ≠ 70 ∨ header.sig3 ≠ 0
      ∨ header.frames = 0 then
    { retval := false, error := some vtfCorruptError, frames := [], events := [],
      printed := [] }
  else
    let header := normalizeVtfHeader header
    let fulldata := vtf_offset header 0 0 0 (-1)
    let base := (u32 b.length + 4294967296 - fulldata) % 4294967296
    match vtfFrameLoop header (vtfBufFn b) base 0 header.frames with
    | (fs, es, ps, err) =>
      { retval := true, error := err, frames := fs, events := es, printed := ps }

/-- The signature check of io-vtf.c line 489 in positive form. -/
def sigOk (h : VtfHeader) : Prop :=
  h.sig0 = 86 ∧ h.sig1 = 84 ∧ h.sig2 = 70 ∧ h.sig3 = 0

instance (h : VtfHeader) : Decidable (sigOk h) := by
  unfold sigOk
  infer_instance

/-- The region start used by `stop_load` for a buffer that passes the
header checks. -/
def vtfBase (b : List Nat) : Nat :=
  (u32 b.length + 4294967296
    - vtf_offset (normalizeVtfHeader (parseVtfHeader b)) 0 0 0 (-1)) % 4294967296

/-- A 57-byte buffer whose header demands a 16x16 RGBA8888 frame (1024
bytes of pixel data) but which contains no pixel data at all: the
computed region exceeds the buffer length.  Layout: signature, version
7.1 (so depth normalises to 1), width = height = 16, frames = 1, format
RGBA8888 (0), mipmapCount = 1. -/
def c3Buffer : List Nat :=
  [86, 84, 70, 0,
   7, 0, 0, 0,
   1, 0, 0, 0,
   0, 0, 0, 0,
   16, 0, 16, 0,
   0, 0, 0, 0,
   1, 0,
   0, 0, 0, 0, 0, 0, 0, 0, 0, 0, 0, 0, 0,
   0, 0, 0, 0, 0, 0, 0, 0, 0, 0, 0, 0, 0,
   0, 0, 0, 0,
   1]

/-- A structurally well-formed 1x1 single-frame buffer declaring the
unknown format 99. -/
def c7Buffer : List Nat :=
  [86, 84, 70, 0,
   7, 0, 0, 0,
   1, 0, 0, 0,
   0, 0, 0, 0,
   1, 0, 1, 0,
   0, 0, 0, 0,
   1, 0,
   0, 0, 0, 0, 0, 0, 0, 0, 0, 0, 0, 0, 0,
   0, 0, 0, 0, 0, 0, 0, 0, 0, 0, 0, 0, 0,
   99, 0, 0, 0,
   1,
   0, 0, 0, 0, 0, 0, 0, 0, 0, 0, 0]

/-- The same well-formed buffer as `c7Buffer` but declaring the unknown
format 100. -/
def c7bBuffer : List Nat :=
  [86, 84, 70, 0,
   7, 0, 0, 0,
   1, 0, 0, 0,
   0, 0, 0, 0,
   1, 0, 1, 0,
   0, 0, 0, 0,
   1, 0,
   0, 0, 0, 0, 0, 0, 0, 0, 0, 0, 0, 0, 0,
   0, 0, 0, 0, 0, 0, 0, 0, 0, 0, 0, 0, 0,
   100, 0, 0, 0,
   1,
   0, 0, 0, 0, 0, 0, 0, 0, 0, 0, 0]

/-- A buffer whose first four bytes are not `VTF\0`. -/
def c6BadBuffer : List Nat := [86, 84, 70, 7, 0, 0, 0, 0]

/-- A complete, well-formed 1x1 RGBA8888 buffer with two animation
frames: 57 header bytes followed by 2 frames x 4 pixel bytes. -/
def c9Buffer : List Nat :=
  [86, 84, 70, 0,
   7, 0, 0, 0,
   1, 0, 0, 0,
   0, 0, 0, 0,
   1, 0, 1, 0,
   0, 0, 0, 0,
   2, 0,
   0, 0, 0, 0, 0, 0, 0, 0, 0, 0, 0, 0, 0,
   0, 0, 0, 0, 0, 0, 0, 0, 0, 0, 0, 0, 0,
   0, 0, 0, 0,
   1,
   10, 20, 30, 40,
   50, 60, 70, 80]

/-! ## Arithmetic helper lemmas -/

theorem u32_lt (a : Nat) : u32 a < 4294967296 := Nat.mod_lt _ (by decide)

theorem u32_eq_of_lt {a : Nat} (h : a < 4294967296) : u32 a = a := Nat.mod_eq_of_lt h

theorem u32_add_left (a b : Nat) : u32 (u32 a + b) = u32 (a + b) := Nat.mod_add_mod a _ b

theorem u32_add_right (a b : Nat) : u32 (a + u32 b) = u32 (a + b) := Nat.add_mod_mod a b _

theorem u32_mul_left (a b : Nat) : u32 (u32 a * b) = u32 (a * b) :=
  Nat.mod_mul_mod

theorem u32_mul_right (a b : Nat) : u32 (a * u32 b) = u32 (a * b) := by
  rw [Nat.mul_comm a, u32_mul_left, Nat.mul_comm]

theorem foldl_u32_add (s : Nat → Nat) :
    ∀ (l : List Nat) (acc : Nat),
      l.foldl (fun a i => u32 (a + s i)) (u32 acc) = u32 (acc + (l.map s).sum) := by
  intro l
  induction l with
  | nil => intro acc; simp
  | cons x xs ih =>
    intro acc
    simp only [List.foldl_cons, List.map_cons, List.sum_cons]
    rw [u32_add_left, ih (acc + s x), Nat.add_assoc]

/-- The descending accumulation loop of `vtf_offset` computes the suffix
sum reduced mod 2^32. -/
theorem vtf_offset_loop (header : VtfHeader) (mipLevel : Int) :
    (((List.range header.mipmapCount).filter
        (fun (i : Nat) => decide (mipLevel < (i : Int)))).reverse).foldl
      (fun acc i => u32 (acc + vtf_mip_size header i header.depth)) 0
      = u32 (mipSuffixSum header mipLevel) := by
  have h0 : (0 : Nat) = u32 0 := by decide
  rw [h0, foldl_u32_add]
  unfold mipSuffixSum
  rw [List.map_reverse, List.sum_reverse, Nat.zero_add]

/-- Closed form of `vtf_offset`: the claimed formula reduced mod 2^32. -/
theorem vtf_offset_closed (header : VtfHeader) (frame face slice : Nat) (mipLevel : Int) :
    vtf_offset header frame face slice mipLevel
      = u32 (mipSuffixSum header mipLevel * header.frames
          + vtf_mip_size header mipLevel.toNat header.depth * (frame * 1 + face)
          + vtf_mip_size header mipLevel.toNat 1 * slice) := by
  unfold vtf_offset
  rw [vtf_offset_loop]
  simp only [Nat.mul_one, u32_mul_left, u32_mul_right, u32_add_left, u32_add_right]

theorem mipSuffixSum_anti (header : VtfHeader) {m m' : Int} (hmm : m ≤ m') :
    mipSuffixSum header m' ≤ mipSuffixSum header m := by
  unfold mipSuffixSum
  apply List.Sublist.sum_le_sum
  · apply List.Sublist.map
    apply List.monotone_filter_right
    intro a ha
    simp only [decide_eq_true_eq] at ha ⊢
    omega
  · intro x hx
    exact Nat.zero_le x

/-- With the frame/face/slice arguments all zero, `vtf_offset` is the
suffix sum of the mip sizes times the frame count, reduced mod 2^32. -/
theorem vtf_offset_zeros (header : VtfHeader) (mipLevel : Int) :
    vtf_offset header 0 0 0 mipLevel
      = u32 (mipSuffixSum header mipLevel * header.frames) := by
  rw [vtf_offset_closed]
  simp

/-- For a header with at least one mip level, the full suffix sum splits
off the level-0 mip size. -/
theorem mipSuffixSum_neg_one_split (header : VtfHeader) (hmc : 1 ≤ header.mipmapCount) :
    mipSuffixSum header (-1)
      = vtf_mip_size header 0 header.depth + mipSuffixSum header 0 := by
  obtain ⟨mc, hmc'⟩ : ∃ mc, header.mipmapCount = mc + 1 :=
    ⟨header.mipmapCount - 1, by omega⟩
  unfold mipSuffixSum
  rw [hmc', List.range_succ_eq_map]
  have hall : ∀ l : List Nat,
      (0 :: l.map Nat.succ).filter (fun (i : Nat) => decide ((-1 : Int) < (i : Int)))
        = 0 :: l.map Nat.succ := by
    intro l
    apply List.filter_eq_self.mpr
    intro a ha
    simp only [decide_eq_true_eq]
    omega
  have hpos : ∀ l : List Nat,
      (0 :: l.map Nat.succ).filter (fun (i : Nat) => decide ((0 : Int) < (i : Int)))
        = l.map Nat.succ := by
    intro l
    rw [List.filter_cons]
    simp only [Int.natCast_zero, decide_eq_true_eq]
    rw [if_neg (by omega)]
    apply List.filter_eq_self.mpr
    intro a ha
    rcases List.mem_map.mp ha with ⟨b, hb, rfl⟩
    simp only [decide_eq_true_eq]
    omega
  rw [hall, hpos]
  simp

/-- Claim C1 (amended).  With `faceCount = 1`, `vtf_offset` always equals
the claimed sum-of-smaller-mips formula reduced modulo 2^32 (the
computation is performed in C `unsigned int`); and provided the total
high-resolution region size `frames * Σ mipSize` fits in 32 bits and
`mipmapCount ≥ 1`, the three exact consequences claimed also hold:
`offset(0,0,0,-1)` is the total region length, offsets at `(0,0,0,·)` are
monotonically non-decreasing as the mip level decreases, and
`offset(0,0,0,-1) = offset(0,0,0,0) + frames * mipSize(0, depth)`. -/
theorem claim_C1_offset_formula (h : VtfHeader)
    (htot : totalRegion h < 4294967296) (hmc : 1 ≤ h.mipmapCount) :
    (∀ frame face slice mip : Nat,
        vtf_offset h frame face slice (mip : Int)
          = u32 (claimOffsetFormula h frame face slice mip))
    ∧ vtf_offset h 0 0 0 (-1) = totalRegion h
    ∧ (∀ m : Int, -1 ≤ m →
        vtf_offset h 0 0 0 (m + 1) ≤ vtf_offset h 0 0 0 m)
    ∧ vtf_offset h 0 0 0 (-1)
        = vtf_offset h 0 0 0 0 + h.frames * vtf_mip_size h 0 h.depth := by
  have htot' : mipSuffixSum h (-1) * h.frames < 4294967296 := by
    have h2 := htot
    unfold totalRegion at h2
    rw [Nat.mul_comm]
    exact h2
  have hbound : ∀ m : Int, -1 ≤ m → mipSuffixSum h m * h.frames < 4294967296 := by
    intro m hm
    exact lt_of_le_of_lt (Nat.mul_le_mul_right _ (mipSuffixSum_anti h hm)) htot'
  refine ⟨?_, ?_, ?_, ?_⟩
  · intro frame face slice mip
    rw [vtf_offset_closed, claimOffsetFormula, Int.toNat_natCast]
    ring_nf
  · rw [vtf_offset_zeros, totalRegion, Nat.mul_comm]
    exact u32_eq_of_lt (by rw [Nat.mul_comm]; exact htot')
  · intro m hm
    rw [vtf_offset_zeros, vtf_offset_zeros,
      u32_eq_of_lt (hbound m hm), u32_eq_of_lt (hbound (m + 1) (by omega))]
    exact Nat.mul_le_mul_right _ (mipSuffixSum_anti h (by omega))
  · rw [vtf_offset_zeros, vtf_offset_zeros,
      u32_eq_of_lt (hbound (-1) (by omega)), u32_eq_of_lt (hbound 0 (by omega)),
      mipSuffixSum_neg_one_split h hmc]
    ring

/-- Claim C1 witness: a concrete small header satisfying the hypotheses,
with the second conjunct (total region length) evaluated. -/
theorem claim_C1_offset_formula_witness :
    totalRegion c1WitnessHeader < 4294967296 ∧ 1 ≤ c1WitnessHeader.mipmapCount ∧
      vtf_offset c1WitnessHeader 0 0 0 (-1) = totalRegion c1WitnessHeader :=
  ⟨by decide, by decide,
    (claim_C1_offset_formula c1WitnessHeader (by decide) (by decide)).2.1⟩

/-- Claim C1 counterexample: for the (fully in-range) header
`c1Header` — 16384x16384 RGBA8888, 2 mip levels, 13 frames — the 32-bit
accumulation wraps, so `offset(0,0,0,-1)` is strictly below
`offset(0,0,0,0)` (refuting monotonicity as claimed), differs from the
total region byte length, and differs from
`offset(0,0,0,0) + frames * mipSize(0, depth)`. -/
theorem claim_C1_counterexample :
    vtf_offset c1Header 0 0 0 (-1) < vtf_offset c1Header 0 0 0 0
    ∧ vtf_offset c1Header 0 0 0 (-1) ≠ totalRegion c1Header
    ∧ vtf_offset c1Header 0 0 0 (-1)
        ≠ vtf_offset c1Header 0 0 0 0
          + c1Header.frames * vtf_mip_size c1Header 0 c1Header.depth := by
  refine ⟨by decide, by decide, by decide⟩

/-- Auxiliary: the source's clamping `if x < 1 then 1 else x` is `max 1 x`. -/
theorem clamp_one (x : Nat) : (if x < 1 then 1 else x) = max 1 x := by
  rcases Nat.eq_zero_or_pos x with h | h
  · subst h; decide
  · rw [if_neg (by omega)]
    omega

/-- Claim C2 (amended).  `vtf_mip_size` equals the claimed per-format byte
cost of a mip slice times the mip depth, reduced modulo 2^32 (the products
are computed in C `unsigned int`; the unreduced equality fails for headers
whose cost reaches 2^32, see the counterexample). -/
theorem claim_C2_mip_size (h : VtfHeader) (level depth : Nat) :
    vtf_mip_size h level depth = u32 (claimMipCost h level depth) := by
  unfold vtf_mip_size claimMipCost
  simp only [clamp_one]
  by_cases h0 : h.highResImageFormat = IMAGE_FORMAT_RGBA8888
  · simp [h0, IMAGE_FORMAT_RGBA8888, u32_mul_left]
  by_cases h1 : h.highResImageFormat = IMAGE_FORMAT_ABGR8888
  · simp [h0, h1, IMAGE_FORMAT_RGBA8888, IMAGE_FORMAT_ABGR8888, u32_mul_left]
  by_cases h2 : h.highResImageFormat = IMAGE_FORMAT_RGB888
  · simp [h0, h1, h2, IMAGE_FORMAT_RGBA8888, IMAGE_FORMAT_ABGR8888, IMAGE_FORMAT_RGB888,
      IMAGE_FORMAT_ARGB8888, IMAGE_FORMAT_BGRA8888, IMAGE_FORMAT_BGR888, u32_mul_left]
  by_cases h3 : h.highResImageFormat = IMAGE_FORMAT_BGR888
  · simp [h0, h1, h2, h3, IMAGE_FORMAT_RGBA8888, IMAGE_FORMAT_ABGR8888, IMAGE_FORMAT_RGB888,
      IMAGE_FORMAT_ARGB8888, IMAGE_FORMAT_BGRA8888, IMAGE_FORMAT_BGR888, u32_mul_left]
  by_cases h4 : h.highResImageFormat = IMAGE_FORMAT_RGB565
  · simp [h0, h1, h2, h3, h4, IMAGE_FORMAT_RGBA8888, IMAGE_FORMAT_ABGR8888, IMAGE_FORMAT_RGB888,
      IMAGE_FORMAT_ARGB8888, IMAGE_FORMAT_BGRA8888, IMAGE_FORMAT_BGR888, IMAGE_FORMAT_RGB565,
      IMAGE_FORMAT_IA88, u32_mul_left]
  by_cases h5 : h.highResImageFormat = IMAGE_FORMAT_I8
  · simp [h0, h1, h2, h3, h4, h5, IMAGE_FORMAT_RGBA8888, IMAGE_FORMAT_ABGR8888,
      IMAGE_FORMAT_RGB888, IMAGE_FORMAT_ARGB8888, IMAGE_FORMAT_BGRA8888, IMAGE_FORMAT_BGR888,
      IMAGE_FORMAT_RGB565, IMAGE_FORMAT_IA88, IMAGE_FORMAT_I8, IMAGE_FORMAT_A8, u32_mul_left]
  by_cases h6 : h.highResImageFormat = IMAGE_FORMAT_IA88
  · simp [h0, h1, h2, h3, h4, h5, h6, IMAGE_FORMAT_RGBA8888, IMAGE_FORMAT_ABGR8888,
      IMAGE_FORMAT_RGB888, IMAGE_FORMAT_ARGB8888, IMAGE_FORMAT_BGRA8888, IMAGE_FORMAT_BGR888,
      IMAGE_FORMAT_RGB565, IMAGE_FORMAT_IA88, IMAGE_FORMAT_I8, IMAGE_FORMAT_A8, u32_mul_left]
  by_cases h8 : h.highResImageFormat = IMAGE_FORMAT_A8
  · simp [h0, h1, h2, h3, h4, h5, h6, h8, IMAGE_FORMAT_RGBA8888, IMAGE_FORMAT_ABGR8888,
      IMAGE_FORMAT_RGB888, IMAGE_FORMAT_ARGB8888, IMAGE_FORMAT_BGRA8888, IMAGE_FORMAT_BGR888,
      IMAGE_FORMAT_RGB565, IMAGE_FORMAT_IA88, IMAGE_FORMAT_I8, IMAGE_FORMAT_A8, u32_mul_left]
  by_cases h13 : h.highResImageFormat = IMAGE_FORMAT_DXT1
  · simp [h0, h1, h2, h3, h4, h5, h6, h8, h13, IMAGE_FORMAT_RGBA8888, IMAGE_FORMAT_ABGR8888,
      IMAGE_FORMAT_RGB888, IMAGE_FORMAT_ARGB8888, IMAGE_FORMAT_BGRA8888, IMAGE_FORMAT_BGR888,
      IMAGE_FORMAT_RGB565, IMAGE_FORMAT_IA88, IMAGE_FORMAT_I8, IMAGE_FORMAT_A8,
      IMAGE_FORMAT_DXT1, u32_mul_left]
  by_cases h15 : h.highResImageFormat = IMAGE_FORMAT_DXT5
  · simp [h0, h1, h2, h3, h4, h5, h6, h8, h13, h15, IMAGE_FORMAT_RGBA8888,
      IMAGE_FORMAT_ABGR8888, IMAGE_FORMAT_RGB888, IMAGE_FORMAT_ARGB8888, IMAGE_FORMAT_BGRA8888,
      IMAGE_FORMAT_BGR888, IMAGE_FORMAT_RGB565, IMAGE_FORMAT_IA88, IMAGE_FORMAT_I8,
      IMAGE_FORMAT_A8, IMAGE_FORMAT_DXT1, IMAGE_FORMAT_DXT5, u32_mul_left]
  by_cases h11 : h.highResImageFormat = IMAGE_FORMAT_ARGB8888
  · simp [h0, h1, h2, h3, h4, h5, h6, h8, h13, h15, h11, IMAGE_FORMAT_RGBA8888,
      IMAGE_FORMAT_ABGR8888, IMAGE_FORMAT_RGB888, IMAGE_FORMAT_ARGB8888, IMAGE_FORMAT_BGRA8888,
      IMAGE_FORMAT_BGR888, IMAGE_FORMAT_RGB565, IMAGE_FORMAT_IA88, IMAGE_FORMAT_I8,
      IMAGE_FORMAT_A8, IMAGE_FORMAT_DXT1, IMAGE_FORMAT_DXT5, u32_mul_left]
  by_cases h12 : h.highResImageFormat = IMAGE_FORMAT_BGRA8888
  · simp [h0, h1, h2, h3, h4, h5, h6, h8, h13, h15, h11, h12, IMAGE_FORMAT_RGBA8888,
      IMAGE_FORMAT_ABGR8888, IMAGE_FORMAT_RGB888, IMAGE_FORMAT_ARGB8888, IMAGE_FORMAT_BGRA8888,
      IMAGE_FORMAT_BGR888, IMAGE_FORMAT_RGB565, IMAGE_FORMAT_IA88, IMAGE_FORMAT_I8,
      IMAGE_FORMAT_A8, IMAGE_FORMAT_DXT1, IMAGE_FORMAT_DXT5, u32_mul_left]
  · simp [h0, h1, h2, h3, h4, h5, h6, h8, h13, h15, h11, h12, u32]

/-- Claim C2 counterexample: for a 32768x32768 RGBA8888 header (fields in
range for the binary format) the level-0 cost is exactly 2^32 bytes, so
the 32-bit product wraps to 0 and the unreduced equality of the claim
fails. -/
theorem claim_C2_counterexample :
    vtf_mip_size c2Header 0 1 ≠ claimMipCost c2Header 0 1 := by decide

/-! ## Store machinery lemmas -/

theorem writeStore_at (s : Store) (i v : Nat) : writeStore s i v i = some v :=
  if_pos rfl

theorem writeStore_ne (s : Store) (i v k : Nat) (h : k ≠ i) : writeStore s i v k = s k :=
  if_neg h

theorem applyWrites_cons (x : Nat × Nat) (l : List (Nat × Nat)) (s : Store) :
    applyWrites (x :: l) s = applyWrites l (writeStore s x.1 x.2) := rfl

theorem applyWrites_append (l1 l2 : List (Nat × Nat)) (s : Store) :
    applyWrites (l1 ++ l2) s = applyWrites l2 (applyWrites l1 s) := by
  unfold applyWrites
  exact List.foldl_append _ _ _ _

theorem applyWrites_not_mem (l : List (Nat × Nat)) (s : Store) (idx : Nat)
    (h : ∀ p ∈ l, p.1 ≠ idx) : applyWrites l s idx = s idx := by
  induction l generalizing s with
  | nil => rfl
  | cons x xs ih =>
    rw [applyWrites_cons, ih _ (fun p hp => h p (List.mem_cons_of_mem x hp)),
      writeStore_ne _ _ _ _ (fun he => h x (List.mem_cons_self x xs) he.symm)]

theorem applyWrites_congr_at (l : List (Nat × Nat)) (s s' : Store) (idx : Nat)
    (hss : s idx = s' idx) : applyWrites l s idx = applyWrites l s' idx := by
  induction l generalizing s s' with
  | nil => exact hss
  | cons x xs ih =>
    rw [applyWrites_cons, applyWrites_cons]
    apply ih
    unfold writeStore
    by_cases hk : idx = x.1 <;> simp [hk, hss]

theorem applyWrites_skip_head (x : Nat × Nat) (l : List (Nat × Nat)) (s : Store)
    (idx : Nat) (hne : x.1 ≠ idx) :
    applyWrites (x :: l) s idx = applyWrites l s idx := by
  rw [applyWrites_cons]
  exact applyWrites_congr_at l _ _ idx (writeStore_ne _ _ _ _ (fun h => hne h.symm))

theorem applyWrites_head_no_later (a v : Nat) (l : List (Nat × Nat)) (s : Store)
    (h : ∀ p ∈ l, p.1 ≠ a) : applyWrites ((a, v) :: l) s a = some v := by
  rw [applyWrites_cons, applyWrites_not_mem l _ a h]
  exact writeStore_at _ _ _

theorem runWriterAux_cons (B : Nat) (W : Nat × Nat → Nat → List (Nat × Nat))
    (e : Nat × Nat) (l : List (Nat × Nat)) (st : Nat × Store) :
    runWriterAux B W (e :: l) st
      = runWriterAux B W l (st.1 + B, applyWrites (W e st.1) st.2) := rfl

theorem runWriterAux_append (B : Nat) (W : Nat × Nat → Nat → List (Nat × Nat))
    (l1 l2 : List (Nat × Nat)) (st : Nat × Store) :
    runWriterAux B W (l1 ++ l2) st = runWriterAux B W l2 (runWriterAux B W l1 st) := by
  unfold runWriterAux
  exact List.foldl_append _ _ _ _

theorem runWriterAux_fst (B : Nat) (W : Nat × Nat → Nat → List (Nat × Nat)) :
    ∀ (l : List (Nat × Nat)) (st : Nat × Store),
      (runWriterAux B W l st).1 = st.1 + B * l.length := by
  intro l
  induction l with
  | nil => intro st; simp [runWriterAux]
  | cons x xs ih =>
    intro st
    rw [runWriterAux_cons, ih]
    simp
    ring

theorem runWriterAux_snd_not_mem (B : Nat) (W : Nat × Nat → Nat → List (Nat × Nat))
    (idx : Nat) :
    ∀ (l : List (Nat × Nat)) (st : Nat × Store),
      (∀ e ∈ l, ∀ q, ∀ p ∈ W e q, p.1 ≠ idx) →
      (runWriterAux B W l st).2 idx = st.2 idx := by
  intro l
  induction l with
  | nil => intro st _; rfl
  | cons x xs ih =>
    intro st h
    rw [runWriterAux_cons, ih _ (fun e he => h e (List.mem_cons_of_mem x he))]
    exact applyWrites_not_mem _ _ _ (h x (List.mem_cons_self x xs) st.1)

/-- The value of the final store at an index written only by iteration
`e`: the fold runs `l1`, reaches `e` at byte position `pos + B * l1.length`,
and no later iteration touches `idx`. -/
theorem runWriter_lookup (B : Nat) (W : Nat × Nat → Nat → List (Nat × Nat))
    (l1 l2 : List (Nat × Nat)) (e : Nat × Nat) (pos idx : Nat)
    (h2 : ∀ x ∈ l2, ∀ q, ∀ p ∈ W x q, p.1 ≠ idx) :
    runWriter B W (l1 ++ e :: l2) pos idx
      = applyWrites (W e (pos + B * l1.length))
          ((runWriterAux B W l1 (pos, emptyStore)).2) idx := by
  unfold runWriter
  rw [runWriterAux_append, runWriterAux_cons,
    runWriterAux_snd_not_mem B W idx l2 _ h2]
  simp only [runWriterAux_fst]

/-- `rowMajor` is the row-major enumeration of pixel coordinates. -/
theorem rowMajor_eq_flat (hgt wdt : Nat) :
    rowMajor hgt wdt
      = (List.range (hgt * wdt)).map (fun t => (t / wdt, t % wdt)) := by
  rcases Nat.eq_zero_or_pos wdt with hw | hw
  · subst hw
    simp [rowMajor]
  · induction hgt with
    | zero => simp [rowMajor]
    | succ n ih =>
      have hstep : rowMajor (n + 1) wdt
          = rowMajor n wdt ++ (List.range wdt).map (fun j => (n, j)) := by
        unfold rowMajor
        rw [List.range_succ, List.flatMap_append]
        simp
      rw [hstep, ih, show (n + 1) * wdt = n * wdt + wdt by ring, List.range_add,
        List.map_append]
      congr 1
      rw [List.map_map]
      apply List.map_congr_left
      intro j hj
      rw [List.mem_range] at hj
      have h1 : (n * wdt + j) / wdt = n := by
        rw [Nat.mul_comm, Nat.mul_add_div hw, Nat.div_eq_of_lt hj, Nat.add_zero]
      have h2 : (n * wdt + j) % wdt = j := by
        rw [Nat.mul_comm, Nat.mul_add_mod]
        exact Nat.mod_eq_of_lt hj
      simp [Function.comp, h1, h2]

theorem rowMajor_mem (hgt wdt : Nat) (p : Nat × Nat) (hp : p ∈ rowMajor hgt wdt) :
    p.1 < hgt ∧ p.2 < wdt := by
  unfold rowMajor at hp
  rcases List.mem_flatMap.mp hp with ⟨i, hi, hmem⟩
  rcases List.mem_map.mp hmem with ⟨j, hj, rfl⟩
  exact ⟨List.mem_range.mp hi, List.mem_range.mp hj⟩

/-- Decomposition of the row-major traversal around the pixel `(y, x)`:
everything before it, the pixel itself at rank `y * wdt + x`, and
everything after it (all in bounds and distinct from `(y, x)`). -/
theorem rowMajor_decomp (hgt wdt y x : Nat) (hy : y < hgt) (hx : x < wdt) :
    ∃ l1 l2, rowMajor hgt wdt = l1 ++ (y, x) :: l2 ∧ l1.length = y * wdt + x ∧
      ∀ p ∈ l2, p.1 < hgt ∧ p.2 < wdt ∧ p ≠ (y, x) := by
  have hw : 0 < wdt := by omega
  have hk : y * wdt + x < hgt * wdt := by
    calc y * wdt + x < y * wdt + wdt := by omega
      _ = (y + 1) * wdt := by ring
      _ ≤ hgt * wdt := Nat.mul_le_mul_right _ (by omega)
  have hdiv : (y * wdt + x) / wdt = y := by
    rw [Nat.mul_comm, Nat.mul_add_div hw, Nat.div_eq_of_lt hx, Nat.add_zero]
  have hmod : (y * wdt + x) % wdt = x := by
    rw [Nat.mul_comm, Nat.mul_add_mod]
    exact Nat.mod_eq_of_lt hx
  have hsplit : List.range (hgt * wdt)
      = List.range (y * wdt + x)
        ++ (y * wdt + x)
        :: ((List.range (hgt * wdt - (y * wdt + x) - 1)).map
              (fun s => y * wdt + x + (s + 1))) := by
    have h1 : hgt * wdt
        = (y * wdt + x) + ((hgt * wdt - (y * wdt + x) - 1) + 1) := by omega
    conv_lhs => rw [h1, List.range_add, List.range_succ_eq_map]
    rw [List.map_cons, List.map_map]
    congr 1
  refine ⟨(List.range (y * wdt + x)).map (fun t => (t / wdt, t % wdt)),
    ((List.range (hgt * wdt - (y * wdt + x) - 1)).map
        (fun s => y * wdt + x + (s + 1))).map (fun t => (t / wdt, t % wdt)),
    ?_, ?_, ?_⟩
  · rw [rowMajor_eq_flat, hsplit, List.map_append, List.map_cons, hdiv, hmod]
  · simp
  · intro p hp
    rcases List.mem_map.mp hp with ⟨t, ht, rfl⟩
    rcases List.mem_map.mp ht with ⟨s, hs, rfl⟩
    rw [List.mem_range] at hs
    have htlt : y * wdt + x + (s + 1) < hgt * wdt := by omega
    have htgt : y * wdt + x < y * wdt + x + (s + 1) := by omega
    refine ⟨?_, Nat.mod_lt _ hw, ?_⟩
    · rw [Nat.div_lt_iff_lt_mul hw]
      calc y * wdt + x + (s + 1) < hgt * wdt := htlt
        _ = hgt * wdt := rfl
    · intro heq
      have h1 : (y * wdt + x + (s + 1)) / wdt = y := (Prod.mk.injEq _ _ _ _).mp heq |>.1
      have h2 : (y * wdt + x + (s + 1)) % wdt = x := (Prod.mk.injEq _ _ _ _).mp heq |>.2
      have h3 := Nat.div_add_mod (y * wdt + x + (s + 1)) wdt
      rw [h1, h2, Nat.mul_comm] at h3
      omega

/-- Distinct pixel coordinates occupy distinct byte positions when the
rowstride covers a full row of 4-channel pixels. -/
theorem pixIndex_inj (stride wdt : Nat) (hst : 4 * wdt ≤ stride)
    {y x c y' x' c' : Nat} (hx : x < wdt) (hx' : x' < wdt) (hc : c < 4) (hc' : c' < 4)
    (heq : stride * y + 4 * x + c = stride * y' + 4 * x' + c') :
    y = y' ∧ x = x' ∧ c = c' := by
  have hs0 : 0 < stride := by omega
  have hA : 4 * x + c < stride := by omega
  have hA' : 4 * x' + c' < stride := by omega
  rw [Nat.add_assoc, Nat.add_assoc] at heq
  have hmods := congrArg (fun n => n % stride) heq
  simp only [Nat.mul_add_mod] at hmods
  rw [Nat.mod_eq_of_lt hA, Nat.mod_eq_of_lt hA'] at hmods
  have hy : y = y' := by
    have := heq
    rw [hmods] at this
    have h2 : stride * y = stride * y' := by omega
    exact Nat.eq_of_mul_eq_mul_left hs0 h2
  refine ⟨hy, ?_, ?_⟩ <;> omega

/-- `a ||| (b <<< k) = a + b * 2^k` when `a` fits in `k` bits: the
byte-concatenation `|=`-chains of the source compute little-endian
values. -/
theorem lor_shiftLeft_eq_add {a : Nat} (b k : Nat) (h : a < 2 ^ k) :
    a ||| b <<< k = a + b * 2 ^ k := by
  rw [Nat.shiftLeft_eq, Nat.lor_comm, Nat.mul_comm b, ← Nat.mul_add_lt_is_or h,
    Nat.add_comm]

theorem byteRead_eq (buf : Nat → Nat) (hb : ∀ i, buf i < 256) (p : Nat) :
    byteRead buf p = buf p := Nat.mod_eq_of_lt (hb p)

theorem le16_bridge (buf : Nat → Nat) (hb : ∀ i, buf i < 256) (p : Nat) :
    byteRead buf p ||| byteRead buf (p + 1) <<< 8 = le16 buf p := by
  rw [byteRead_eq buf hb, byteRead_eq buf hb,
    lor_shiftLeft_eq_add _ 8 (by have := hb p; omega)]
  norm_num [le16]

theorem le32_bridge (buf : Nat → Nat) (hb : ∀ i, buf i < 256) (p : Nat) :
    byteRead buf p ||| byteRead buf (p + 1) <<< 8 ||| byteRead buf (p + 2) <<< 16
        ||| byteRead buf (p + 3) <<< 24 = le32 buf p := by
  have h0 := hb p
  have h1 := hb (p + 1)
  have h2 := hb (p + 2)
  rw [le16_bridge buf hb,
    lor_shiftLeft_eq_add _ 16 (by unfold le16; omega),
    byteRead_eq buf hb,
    lor_shiftLeft_eq_add _ 24 (by unfold le16; omega),
    byteRead_eq buf hb]
  norm_num [le16, le32]

theorem le48_bridge (buf : Nat → Nat) (hb : ∀ i, buf i < 256) (p : Nat) :
    byteRead buf p ||| byteRead buf (p + 1) <<< 8 ||| byteRead buf (p + 2) <<< 16
        ||| byteRead buf (p + 3) <<< 24 ||| byteRead buf (p + 4) <<< 32
        ||| byteRead buf (p + 5) <<< 40 = le48 buf p := by
  have h0 := hb p
  have h1 := hb (p + 1)
  have h2 := hb (p + 2)
  have h3 := hb (p + 3)
  have h4 := hb (p + 4)
  rw [le32_bridge buf hb,
    lor_shiftLeft_eq_add _ 32 (by unfold le32; omega),
    byteRead_eq buf hb,
    lor_shiftLeft_eq_add _ 40 (by unfold le32; omega),
    byteRead_eq buf hb]
  norm_num [le32, le48]

/-! ## DXT block decode lemmas -/

theorem gdkRowstride4 (w : Nat) : gdkRowstride 4 w = 4 * w := by
  unfold gdkRowstride
  omega

theorem wDXT1_fst (stride : Nat) (buf : Nat → Nat) (e : Nat × Nat) (q : Nat)
    (p : Nat × Nat) (hp : p ∈ wDXT1 stride buf e q) :
    ∃ ii jj c, ii < 4 ∧ jj < 4 ∧ c < 4 ∧
      p.1 = stride * (e.1 + ii) + 4 * (e.2 + jj) + c := by
  simp only [wDXT1, List.mem_flatMap] at hp
  rcases hp with ⟨pp, hpp, hmem⟩
  have hb := rowMajor_mem 4 4 pp hpp
  simp only [List.mem_cons, List.not_mem_nil, or_false] at hmem
  rcases hmem with h | h | h | h
  · exact ⟨pp.1, pp.2, 0, hb.1, hb.2, by omega, by rw [h]⟩
  · exact ⟨pp.1, pp.2, 1, hb.1, hb.2, by omega, by rw [h]⟩
  · exact ⟨pp.1, pp.2, 2, hb.1, hb.2, by omega, by rw [h]⟩
  · exact ⟨pp.1, pp.2, 3, hb.1, hb.2, by omega, by rw [h]⟩

theorem wDXT5_fst (stride : Nat) (buf : Nat → Nat) (e : Nat × Nat) (q : Nat)
    (p : Nat × Nat) (hp : p ∈ wDXT5 stride buf e q) :
    ∃ ii jj c, ii < 4 ∧ jj < 4 ∧ c < 4 ∧
      p.1 = stride * (e.1 + ii) + 4 * (e.2 + jj) + c := by
  simp only [wDXT5, List.mem_append, List.mem_flatMap] at hp
  rcases hp with ⟨pp, hpp, hmem⟩ | ⟨pp, hpp, hmem⟩
  · have hb := rowMajor_mem 4 4 pp hpp
    simp only [List.mem_cons, List.not_mem_nil, or_false] at hmem
    exact ⟨pp.1, pp.2, 3, hb.1, hb.2, by omega, by rw [hmem]⟩
  · have hb := rowMajor_mem 4 4 pp hpp
    simp only [List.mem_cons, List.not_mem_nil, or_false] at hmem
    rcases hmem with h | h | h
    · exact ⟨pp.1, pp.2, 0, hb.1, hb.2, by omega, by rw [h]⟩
    · exact ⟨pp.1, pp.2, 1, hb.1, hb.2, by omega, by rw [h]⟩
    · exact ⟨pp.1, pp.2, 2, hb.1, hb.2, by omega, by rw [h]⟩

theorem rgbaChannel_eq_getD (P : RGBAQuad) (c : Nat) (hc : c < 4) :
    [P.r, P.g, P.b, P.a].getD c 0 = rgbaChannel P c := by
  interval_cases c <;> rfl

theorem applyWrites_four (q v0 v1 v2 v3 : Nat) (s : Store) (c : Nat) (hc : c < 4) :
    applyWrites [(q + 0, v0), (q + 1, v1), (q + 2, v2), (q + 3, v3)] s (q + c)
      = some ([v0, v1, v2, v3].getD c 0) := by
  interval_cases c
  · apply applyWrites_head_no_later
    intro p hp
    simp only [List.mem_cons, List.not_mem_nil, or_false] at hp
    rcases hp with rfl | rfl | rfl
    · show q + 1 ≠ q + 0; omega
    · show q + 2 ≠ q + 0; omega
    · show q + 3 ≠ q + 0; omega
  · rw [applyWrites_skip_head _ _ _ _ (show q + 0 ≠ q + 1 by omega)]
    apply applyWrites_head_no_later
    intro p hp
    simp only [List.mem_cons, List.not_mem_nil, or_false] at hp
    rcases hp with rfl | rfl
    · show q + 2 ≠ q + 1; omega
    · show q + 3 ≠ q + 1; omega
  · rw [applyWrites_skip_head _ _ _ _ (show q + 0 ≠ q + 2 by omega),
      applyWrites_skip_head _ _ _ _ (show q + 1 ≠ q + 2 by omega)]
    apply applyWrites_head_no_later
    intro p hp
    simp only [List.mem_cons, List.not_mem_nil, or_false] at hp
    rcases hp with rfl
    show q + 3 ≠ q + 2; omega
  · rw [applyWrites_skip_head _ _ _ _ (show q + 0 ≠ q + 3 by omega),
      applyWrites_skip_head _ _ _ _ (show q + 1 ≠ q + 3 by omega),
      applyWrites_skip_head _ _ _ _ (show q + 2 ≠ q + 3 by omega)]
    apply applyWrites_head_no_later
    intro p hp
    simp at hp

/-- Evaluating one DXT1 block's write sequence at in-block pixel
`(ii, jj)`, channel `c`: the palette entry selected by selector bits
`2*(4*ii + jj)`. -/
theorem wDXT1_lookup (wdt stride : Nat) (buf : Nat → Nat) (i j bp : Nat) (s : Store)
    (hst : stride = 4 * wdt) (hjw : j + 4 ≤ wdt)
    (ii jj c : Nat) (hii : ii < 4) (hjj : jj < 4) (hc : c < 4) :
    applyWrites (wDXT1 stride buf (i, j) bp) s (stride * (i + ii) + 4 * (j + jj) + c)
      = some (rgbaChannel
          (dxt1ColorPalette (byteRead buf bp ||| byteRead buf (bp + 1) <<< 8)
            (byteRead buf (bp + 2) ||| byteRead buf (bp + 3) <<< 8)
            ((byteRead buf (bp + 4) ||| byteRead buf (bp + 5) <<< 8 |||
                byteRead buf (bp + 6) <<< 16 ||| byteRead buf (bp + 7) <<< 24)
              >>> (2 * (4 * ii + jj)) &&& 3)) c) := by
  have hinj : ∀ ii' jj' c' : Nat, ii' < 4 → jj' < 4 → c' < 4 →
      stride * (i + ii') + 4 * (j + jj') + c'
          = stride * (i + ii) + 4 * (j + jj) + c →
      ii' = ii ∧ jj' = jj ∧ c' = c := by
    intro ii' jj' c' hii' hjj' hc' heq
    have h4w : 4 * wdt ≤ stride := by omega
    have h1 : j + jj' < wdt := by omega
    have h2 : j + jj < wdt := by omega
    obtain ⟨e1, e2, e3⟩ := pixIndex_inj stride wdt h4w h1 h2 hc' hc heq
    exact ⟨by omega, by omega, e3⟩
  obtain ⟨m1, m2, hdec, _, hm2⟩ := rowMajor_decomp 4 4 ii jj hii hjj
  simp only [wDXT1]
  rw [hdec, List.flatMap_append, List.flatMap_cons, applyWrites_append,
    applyWrites_append]
  rw [applyWrites_not_mem]
  · simp only
    rw [applyWrites_four _ _ _ _ _ _ c hc]
    rw [rgbaChannel_eq_getD _ _ hc]
  · intro p hp
    simp only [List.mem_flatMap] at hp
    rcases hp with ⟨pp, hpp, hmem⟩
    obtain ⟨hpp1, hpp2, hppne⟩ := hm2 pp hpp
    simp only [List.mem_cons, List.not_mem_nil, or_false] at hmem
    rcases hmem with rfl | rfl | rfl | rfl
    · intro heq
      obtain ⟨e1, e2, _⟩ := hinj pp.1 pp.2 0 hpp1 hpp2 (by omega) heq
      exact hppne (by rw [← e1, ← e2])
    · intro heq
      obtain ⟨e1, e2, _⟩ := hinj pp.1 pp.2 1 hpp1 hpp2 (by omega) heq
      exact hppne (by rw [← e1, ← e2])
    · intro heq
      obtain ⟨e1, e2, _⟩ := hinj pp.1 pp.2 2 hpp1 hpp2 (by omega) heq
      exact hppne (by rw [← e1, ← e2])
    · intro heq
      obtain ⟨e1, e2, _⟩ := hinj pp.1 pp.2 3 hpp1 hpp2 (by omega) heq
      exact hppne (by rw [← e1, ← e2])

/-- Branch resolution: a DXT1-format header selects the DXT1 block loop. -/
theorem load_frame_dxt1 (h : VtfHeader) (buf : Nat → Nat) (pos : Nat)
    (hfmt : h.highResImageFormat = IMAGE_FORMAT_DXT1) :
    gdk_pixbuf__vtf_load_frame h buf pos
      = .ok ⟨true, h.width, h.height,
          runWriter 8 (wDXT1 (gdkRowstride 4 h.width) buf)
            (blockOrigins h.height h.width) pos⟩ := by
  unfold gdk_pixbuf__vtf_load_frame
  rw [hfmt]
  norm_num [IMAGE_FORMAT_RGBA8888, IMAGE_FORMAT_ABGR8888, IMAGE_FORMAT_RGB888,
    IMAGE_FORMAT_BGR888, IMAGE_FORMAT_RGB565, IMAGE_FORMAT_I8, IMAGE_FORMAT_IA88,
    IMAGE_FORMAT_A8, IMAGE_FORMAT_DXT1, IMAGE_FORMAT_DXT5, IMAGE_FORMAT_ARGB8888,
    IMAGE_FORMAT_BGRA8888]

/-- Claim C4: for a DXT1 image with block-aligned dimensions, the decoded
pixel `(y, x)` channel `ch` is the palette entry of its 8-byte block (at
byte offset `8 * ((y/4) * (width/4) + x/4)` from the frame start, blocks
in raster order): two little-endian 16-bit endpoints `c0`, `c1`, a 32-bit
little-endian selector whose 2-bit field of rank `4*(y%4) + (x%4)`
(raster order within the block, shifted right by 2 per pixel) indexes the
four-entry palette `dxt1ColorPalette` — RGB565 expansion
`(v<<3)|(v>>5)` / `(v<<2)|(v>>6)`, opaque interpolants
`(4c0+2c1+3)/6`, `(2c0+4c1+3)/6` with alpha 255 when `c0 > c1`, else
midpoint `(c0+c1+1)/2` and transparent black. -/
theorem claim_C4_dxt1_block_decode (h : VtfHeader) (buf : Nat → Nat)
    (pos y x ch : Nat)
    (hfmt : h.highResImageFormat = IMAGE_FORMAT_DXT1)
    (hbytes : ∀ i, buf i < 256)
    (hw : 4 ∣ h.width) (hh : 4 ∣ h.height)
    (hy : y < h.height) (hx : x < h.width) (hch : ch < 4) :
    framePixels (gdk_pixbuf__vtf_load_frame h buf pos)
        (gdkRowstride 4 h.width * y + 4 * x + ch)
      = some (rgbaChannel
          (dxt1ColorPalette
            (le16 buf (pos + 8 * (y / 4 * (h.width / 4) + x / 4)))
            (le16 buf (pos + 8 * (y / 4 * (h.width / 4) + x / 4) + 2))
            ((le32 buf (pos + 8 * (y / 4 * (h.width / 4) + x / 4) + 4)
                >>> (2 * (4 * (y % 4) + x % 4))) &&& 3)) ch) := by
  obtain ⟨hq, hhq⟩ := hh
  obtain ⟨wq, hwq⟩ := hw
  rw [load_frame_dxt1 h buf pos hfmt]
  show runWriter 8 (wDXT1 (gdkRowstride 4 h.width) buf)
      (blockOrigins h.height h.width) pos
      (gdkRowstride 4 h.width * y + 4 * x + ch) = _
  have hbo : blockOrigins h.height h.width
      = (rowMajor hq wq).map (fun p => (4 * p.1, 4 * p.2)) := by
    unfold blockOrigins
    rw [hhq, hwq, show (4 * hq + 3) / 4 = hq by omega,
      show (4 * wq + 3) / 4 = wq by omega]
  obtain ⟨l1, l2, hdec, hlen, hl2⟩ := rowMajor_decomp hq wq (y / 4) (x / 4)
    (by omega) (by omega)
  have hmapdec : blockOrigins h.height h.width
      = l1.map (fun p => (4 * p.1, 4 * p.2))
        ++ (4 * (y / 4), 4 * (x / 4)) :: l2.map (fun p => (4 * p.1, 4 * p.2)) := by
    rw [hbo, hdec, List.map_append, List.map_cons]
  rw [hmapdec, runWriter_lookup]
  · rw [List.length_map, hlen]
    have hlook := wDXT1_lookup h.width (gdkRowstride 4 h.width) buf
      (4 * (y / 4)) (4 * (x / 4)) (pos + 8 * (y / 4 * wq + x / 4))
      ((runWriterAux 8 (wDXT1 (gdkRowstride 4 h.width) buf)
          (l1.map fun p => (4 * p.1, 4 * p.2)) (pos, emptyStore)).2)
      (gdkRowstride4 h.width) (by omega)
      (y % 4) (x % 4) ch (by omega) (by omega) hch
    rw [Nat.div_add_mod y 4, Nat.div_add_mod x 4] at hlook
    have hc0 := le16_bridge buf hbytes (pos + 8 * (y / 4 * wq + x / 4))
    have hc1 : byteRead buf (pos + 8 * (y / 4 * wq + x / 4) + 2)
        ||| byteRead buf (pos + 8 * (y / 4 * wq + x / 4) + 3) <<< 8
        = le16 buf (pos + 8 * (y / 4 * wq + x / 4) + 2) := by
      have h2 := le16_bridge buf hbytes (pos + 8 * (y / 4 * wq + x / 4) + 2)
      rw [show pos + 8 * (y / 4 * wq + x / 4) + 2 + 1
          = pos + 8 * (y / 4 * wq + x / 4) + 3 by omega] at h2
      exact h2
    have hsel : byteRead buf (pos + 8 * (y / 4 * wq + x / 4) + 4)
        ||| byteRead buf (pos + 8 * (y / 4 * wq + x / 4) + 5) <<< 8
        ||| byteRead buf (pos + 8 * (y / 4 * wq + x / 4) + 6) <<< 16
        ||| byteRead buf (pos + 8 * (y / 4 * wq + x / 4) + 7) <<< 24
        = le32 buf (pos + 8 * (y / 4 * wq + x / 4) + 4) := by
      have h2 := le32_bridge buf hbytes (pos + 8 * (y / 4 * wq + x / 4) + 4)
      rw [show pos + 8 * (y / 4 * wq + x / 4) + 4 + 1
          = pos + 8 * (y / 4 * wq + x / 4) + 5 by omega,
        show pos + 8 * (y / 4 * wq + x / 4) + 4 + 2
          = pos + 8 * (y / 4 * wq + x / 4) + 6 by omega,
        show pos + 8 * (y / 4 * wq + x / 4) + 4 + 3
          = pos + 8 * (y / 4 * wq + x / 4) + 7 by omega] at h2
      exact h2
    rw [hc0, hc1, hsel] at hlook
    have hw4 : h.width / 4 = wq := by omega
    rw [hw4]
    exact hlook
  · intro bx hbx q p hp
    rcases List.mem_map.mp hbx with ⟨ab, hab, rfl⟩
    obtain ⟨hah, haw, hane⟩ := hl2 ab hab
    obtain ⟨ii, jj, c, hii, hjj, hc, hfst⟩ := wDXT1_fst _ _ _ _ p hp
    dsimp only at hfst
    rw [hfst]
    intro heq
    have hxb : 4 * ab.2 + jj < h.width := by omega
    obtain ⟨e1, e2, e3⟩ := pixIndex_inj (gdkRowstride 4 h.width) h.width
      (by rw [gdkRowstride4]) hxb hx hc hch heq
    apply hane
    have ha1 : ab.1 = y / 4 := by omega
    have ha2 : ab.2 = x / 4 := by omega
    rw [← ha1, ← ha2]

/-- Claim C4 witness: 4x4 DXT1 texture over an all-zero buffer, pixel
(0,0), channel 0. -/
theorem claim_C4_dxt1_block_decode_witness :
    framePixels (gdk_pixbuf__vtf_load_frame c4WitnessHeader zeroBuf 0)
        (gdkRowstride 4 c4WitnessHeader.width * 0 + 4 * 0 + 0)
      = some (rgbaChannel
          (dxt1ColorPalette
            (le16 zeroBuf (0 + 8 * (0 / 4 * (c4WitnessHeader.width / 4) + 0 / 4)))
            (le16 zeroBuf (0 + 8 * (0 / 4 * (c4WitnessHeader.width / 4) + 0 / 4) + 2))
            ((le32 zeroBuf (0 + 8 * (0 / 4 * (c4WitnessHeader.width / 4) + 0 / 4) + 4)
                >>> (2 * (4 * (0 % 4) + 0 % 4))) &&& 3)) 0) :=
  claim_C4_dxt1_block_decode c4WitnessHeader zeroBuf 0 0 0 0 rfl
    (fun _ => Nat.zero_lt_succ 255) (by decide) (by decide) (by decide) (by decide)
    (by decide)

theorem rgbChannel_eq_getD (P : RGBTriple) (c : Nat) (hc : c < 3) :
    [P.r, P.g, P.b].getD c 0 = rgbChannel P c := by
  interval_cases c <;> rfl

theorem applyWrites_three (q v0 v1 v2 : Nat) (s : Store) (c : Nat) (hc : c < 3) :
    applyWrites [(q + 0, v0), (q + 1, v1), (q + 2, v2)] s (q + c)
      = some ([v0, v1, v2].getD c 0) := by
  interval_cases c
  · apply applyWrites_head_no_later
    intro p hp
    simp only [List.mem_cons, List.not_mem_nil, or_false] at hp
    rcases hp with rfl | rfl
    · show q + 1 ≠ q + 0; omega
    · show q + 2 ≠ q + 0; omega
  · rw [applyWrites_skip_head _ _ _ _ (show q + 0 ≠ q + 1 by omega)]
    apply applyWrites_head_no_later
    intro p hp
    simp only [List.mem_cons, List.not_mem_nil, or_false] at hp
    rcases hp with rfl
    show q + 2 ≠ q + 1; omega
  · rw [applyWrites_skip_head _ _ _ _ (show q + 0 ≠ q + 2 by omega),
      applyWrites_skip_head _ _ _ _ (show q + 1 ≠ q + 2 by omega)]
    apply applyWrites_head_no_later
    intro p hp
    simp at hp

/-- Evaluating one DXT5 block's write sequence at in-block pixel
`(ii, jj)`, channel `c`: channel 3 comes from the 3-bit alpha selector
into the 8-entry alpha palette (written first); channels 0-2 come from
the 2-bit color selector into the always-opaque color palette (written
second, not touching alpha). -/
theorem wDXT5_lookup (wdt stride : Nat) (buf : Nat → Nat) (i j bp : Nat) (s : Store)
    (hst : stride = 4 * wdt) (hjw : j + 4 ≤ wdt)
    (ii jj c : Nat) (hii : ii < 4) (hjj : jj < 4) (hc : c < 4) :
    applyWrites (wDXT5 stride buf (i, j) bp) s (stride * (i + ii) + 4 * (j + jj) + c)
      = some (if c = 3 then
          dxt5Alpha (byteRead buf bp) (byteRead buf (bp + 1))
            ((byteRead buf (bp + 2) ||| byteRead buf (bp + 3) <<< 8 |||
                byteRead buf (bp + 4) <<< 16 ||| byteRead buf (bp + 5) <<< 24 |||
                byteRead buf (bp + 6) <<< 32 ||| byteRead buf (bp + 7) <<< 40)
              >>> (3 * (4 * ii + jj)) &&& 7)
        else
          rgbChannel
            (dxt5ColorPalette (byteRead buf (bp + 8) ||| byteRead buf (bp + 9) <<< 8)
              (byteRead buf (bp + 10) ||| byteRead buf (bp + 11) <<< 8)
              ((byteRead buf (bp + 12) ||| byteRead buf (bp + 13) <<< 8 |||
                  byteRead buf (bp + 14) <<< 16 ||| byteRead buf (bp + 15) <<< 24)
                >>> (2 * (4 * ii + jj)) &&& 3)) c) := by
  have hinj : ∀ ii' jj' c' : Nat, ii' < 4 → jj' < 4 → c' < 4 →
      stride * (i + ii') + 4 * (j + jj') + c'
          = stride * (i + ii) + 4 * (j + jj) + c →
      ii' = ii ∧ jj' = jj ∧ c' = c := by
    intro ii' jj' c' hii' hjj' hc' heq
    have h4w : 4 * wdt ≤ stride := by omega
    have h1 : j + jj' < wdt := by omega
    have h2 : j + jj < wdt := by omega
    obtain ⟨e1, e2, e3⟩ := pixIndex_inj stride wdt h4w h1 h2 hc' hc heq
    exact ⟨by omega, by omega, e3⟩
  obtain ⟨m1, m2, hdec, _, hm2⟩ := rowMajor_decomp 4 4 ii jj hii hjj
  simp only [wDXT5]
  rw [applyWrites_append]
  by_cases hc3 : c = 3
  · subst hc3
    rw [applyWrites_not_mem]
    · rw [hdec, List.flatMap_append, List.flatMap_cons, applyWrites_append,
        applyWrites_append, applyWrites_not_mem]
      · simp only [if_true]
        apply applyWrites_head_no_later
        intro p hp
        simp at hp
      · intro p hp
        simp only [List.mem_flatMap] at hp
        rcases hp with ⟨pp, hpp, hmem⟩
        obtain ⟨hpp1, hpp2, hppne⟩ := hm2 pp hpp
        simp only [List.mem_cons, List.not_mem_nil, or_false] at hmem
        rcases hmem with rfl
        intro heq
        obtain ⟨e1, e2, _⟩ := hinj pp.1 pp.2 3 hpp1 hpp2 (by omega) heq
        exact hppne (by rw [← e1, ← e2])
    · intro p hp
      simp only [List.mem_flatMap] at hp
      rcases hp with ⟨pp, hpp, hmem⟩
      have hb := rowMajor_mem 4 4 pp hpp
      simp only [List.mem_cons, List.not_mem_nil, or_false] at hmem
      rcases hmem with rfl | rfl | rfl
      · intro heq
        obtain ⟨_, _, e3⟩ := hinj pp.1 pp.2 0 hb.1 hb.2 (by omega) heq
        omega
      · intro heq
        obtain ⟨_, _, e3⟩ := hinj pp.1 pp.2 1 hb.1 hb.2 (by omega) heq
        omega
      · intro heq
        obtain ⟨_, _, e3⟩ := hinj pp.1 pp.2 2 hb.1 hb.2 (by omega) heq
        omega
  · have hclt : c < 3 := by omega
    rw [hdec, List.flatMap_append, List.flatMap_cons, applyWrites_append,
      applyWrites_append, applyWrites_not_mem]
    · simp only
      rw [if_neg hc3]
      rw [applyWrites_three _ _ _ _ _ c hclt, rgbChannel_eq_getD _ _ hclt]
    · intro p hp
      simp only [List.mem_flatMap] at hp
      rcases hp with ⟨pp, hpp, hmem⟩
      obtain ⟨hpp1, hpp2, hppne⟩ := hm2 pp hpp
      simp only [List.mem_cons, List.not_mem_nil, or_false] at hmem
      rcases hmem with rfl | rfl | rfl
      · intro heq
        obtain ⟨e1, e2, _⟩ := hinj pp.1 pp.2 0 hpp1 hpp2 (by omega) heq
        exact hppne (by rw [← e1, ← e2])
      · intro heq
        obtain ⟨e1, e2, _⟩ := hinj pp.1 pp.2 1 hpp1 hpp2 (by omega) heq
        exact hppne (by rw [← e1, ← e2])
      · intro heq
        obtain ⟨e1, e2, _⟩ := hinj pp.1 pp.2 2 hpp1 hpp2 (by omega) heq
        exact hppne (by rw [← e1, ← e2])

/-- Branch resolution: a DXT5-format header selects the DXT5 block loop. -/
theorem load_frame_dxt5 (h : VtfHeader) (buf : Nat → Nat) (pos : Nat)
    (hfmt : h.highResImageFormat = IMAGE_FORMAT_DXT5) :
    gdk_pixbuf__vtf_load_frame h buf pos
      = .ok ⟨true, h.width, h.height,
          runWriter 16 (wDXT5 (gdkRowstride 4 h.width) buf)
            (blockOrigins h.height h.width) pos⟩ := by
  unfold gdk_pixbuf__vtf_load_frame
  rw [hfmt]
  norm_num [IMAGE_FORMAT_RGBA8888, IMAGE_FORMAT_ABGR8888, IMAGE_FORMAT_RGB888,
    IMAGE_FORMAT_BGR888, IMAGE_FORMAT_RGB565, IMAGE_FORMAT_I8, IMAGE_FORMAT_IA88,
    IMAGE_FORMAT_A8, IMAGE_FORMAT_DXT1, IMAGE_FORMAT_DXT5, IMAGE_FORMAT_ARGB8888,
    IMAGE_FORMAT_BGRA8888]

/-- Claim C5: for a DXT5 image with block-aligned dimensions, each
16-byte block decodes alpha sub-block first — endpoints `a0`, `a1`, the
claimed 7-step (`a0 > a1`, weights over 14 rounded `+7`) or 5-step
(`a0 ≤ a1`, over 10 rounded `+5`, `a6 = 0`, `a7 = 255`) palette, a 48-bit
little-endian selector consuming 3 bits per pixel low-to-high in raster
order, writing only alpha — then the color sub-block exactly as DXT1's
opaque branch regardless of the `c0`/`c1` ordering, writing only R, G, B. -/
theorem claim_C5_dxt5_block_decode (h : VtfHeader) (buf : Nat → Nat)
    (pos y x ch : Nat)
    (hfmt : h.highResImageFormat = IMAGE_FORMAT_DXT5)
    (hbytes : ∀ i, buf i < 256)
    (hw : 4 ∣ h.width) (hh : 4 ∣ h.height)
    (hy : y < h.height) (hx : x < h.width) (hch : ch < 4) :
    framePixels (gdk_pixbuf__vtf_load_frame h buf pos)
        (gdkRowstride 4 h.width * y + 4 * x + ch)
      = some (if ch = 3 then
          dxt5Alpha (buf (pos + 16 * (y / 4 * (h.width / 4) + x / 4)))
            (buf (pos + 16 * (y / 4 * (h.width / 4) + x / 4) + 1))
            ((le48 buf (pos + 16 * (y / 4 * (h.width / 4) + x / 4) + 2)
                >>> (3 * (4 * (y % 4) + x % 4))) &&& 7)
        else
          rgbChannel
            (dxt5ColorPalette
              (le16 buf (pos + 16 * (y / 4 * (h.width / 4) + x / 4) + 8))
              (le16 buf (pos + 16 * (y / 4 * (h.width / 4) + x / 4) + 10))
              ((le32 buf (pos + 16 * (y / 4 * (h.width / 4) + x / 4) + 12)
                  >>> (2 * (4 * (y % 4) + x % 4))) &&& 3)) ch) := by
  obtain ⟨hq, hhq⟩ := hh
  obtain ⟨wq, hwq⟩ := hw
  rw [load_frame_dxt5 h buf pos hfmt]
  show runWriter 16 (wDXT5 (gdkRowstride 4 h.width) buf)
      (blockOrigins h.height h.width) pos
      (gdkRowstride 4 h.width * y + 4 * x + ch) = _
  have hbo : blockOrigins h.height h.width
      = (rowMajor hq wq).map (fun p => (4 * p.1, 4 * p.2)) := by
    unfold blockOrigins
    rw [hhq, hwq, show (4 * hq + 3) / 4 = hq by omega,
      show (4 * wq + 3) / 4 = wq by omega]
  obtain ⟨l1, l2, hdec, hlen, hl2⟩ := rowMajor_decomp hq wq (y / 4) (x / 4)
    (by omega) (by omega)
  have hmapdec : blockOrigins h.height h.width
      = l1.map (fun p => (4 * p.1, 4 * p.2))
        ++ (4 * (y / 4), 4 * (x / 4)) :: l2.map (fun p => (4 * p.1, 4 * p.2)) := by
    rw [hbo, hdec, List.map_append, List.map_cons]
  rw [hmapdec, runWriter_lookup]
  · rw [List.length_map, hlen]
    have hlook := wDXT5_lookup h.width (gdkRowstride 4 h.width) buf
      (4 * (y / 4)) (4 * (x / 4)) (pos + 16 * (y / 4 * wq + x / 4))
      ((runWriterAux 16 (wDXT5 (gdkRowstride 4 h.width) buf)
          (l1.map fun p => (4 * p.1, 4 * p.2)) (pos, emptyStore)).2)
      (gdkRowstride4 h.width) (by omega)
      (y % 4) (x % 4) ch (by omega) (by omega) hch
    rw [Nat.div_add_mod y 4, Nat.div_add_mod x 4] at hlook
    have ha0 := byteRead_eq buf hbytes (pos + 16 * (y / 4 * wq + x / 4))
    have ha1 : byteRead buf (pos + 16 * (y / 4 * wq + x / 4) + 1)
        = buf (pos + 16 * (y / 4 * wq + x / 4) + 1) :=
      byteRead_eq buf hbytes _
    have hasel : byteRead buf (pos + 16 * (y / 4 * wq + x / 4) + 2)
        ||| byteRead buf (pos + 16 * (y / 4 * wq + x / 4) + 3) <<< 8
        ||| byteRead buf (pos + 16 * (y / 4 * wq + x / 4) + 4) <<< 16
        ||| byteRead buf (pos + 16 * (y / 4 * wq + x / 4) + 5) <<< 24
        ||| byteRead buf (pos + 16 * (y / 4 * wq + x / 4) + 6) <<< 32
        ||| byteRead buf (pos + 16 * (y / 4 * wq + x / 4) + 7) <<< 40
        = le48 buf (pos + 16 * (y / 4 * wq + x / 4) + 2) := by
      have h2 := le48_bridge buf hbytes (pos + 16 * (y / 4 * wq + x / 4) + 2)
      rw [show pos + 16 * (y / 4 * wq + x / 4) + 2 + 1
          = pos + 16 * (y / 4 * wq + x / 4) + 3 by omega,
        show pos + 16 * (y / 4 * wq + x / 4) + 2 + 2
          = pos + 16 * (y / 4 * wq + x / 4) + 4 by omega,
        show pos + 16 * (y / 4 * wq + x / 4) + 2 + 3
          = pos + 16 * (y / 4 * wq + x / 4) + 5 by omega,
        show pos + 16 * (y / 4 * wq + x / 4) + 2 + 4
          = pos + 16 * (y / 4 * wq + x / 4) + 6 by omega,
        show pos + 16 * (y / 4 * wq + x / 4) + 2 + 5
          = pos + 16 * (y / 4 * wq + x / 4) + 7 by omega] at h2
      exact h2
    have hcc0 : byteRead buf (pos + 16 * (y / 4 * wq + x / 4) + 8)
        ||| byteRead buf (pos + 16 * (y / 4 * wq + x / 4) + 9) <<< 8
        = le16 buf (pos + 16 * (y / 4 * wq + x / 4) + 8) := by
      have h2 := le16_bridge buf hbytes (pos + 16 * (y / 4 * wq + x / 4) + 8)
      rw [show pos + 16 * (y / 4 * wq + x / 4) + 8 + 1
          = pos + 16 * (y / 4 * wq + x / 4) + 9 by omega] at h2
      exact h2
    have hcc1 : byteRead buf (pos + 16 * (y / 4 * wq + x / 4) + 10)
        ||| byteRead buf (pos + 16 * (y / 4 * wq + x / 4) + 11) <<< 8
        = le16 buf (pos + 16 * (y / 4 * wq + x / 4) + 10) := by
      have h2 := le16_bridge buf hbytes (pos + 16 * (y / 4 * wq + x / 4) + 10)
      rw [show pos + 16 * (y / 4 * wq + x / 4) + 10 + 1
          = pos + 16 * (y / 4 * wq + x / 4) + 11 by omega] at h2
      exact h2
    have hcsel : byteRead buf (pos + 16 * (y / 4 * wq + x / 4) + 12)
        ||| byteRead buf (pos + 16 * (y / 4 * wq + x / 4) + 13) <<< 8
        ||| byteRead buf (pos + 16 * (y / 4 * wq + x / 4) + 14) <<< 16
        ||| byteRead buf (pos + 16 * (y / 4 * wq + x / 4) + 15) <<< 24
        = le32 buf (pos + 16 * (y / 4 * wq + x / 4) + 12) := by
      have h2 := le32_bridge buf hbytes (pos + 16 * (y / 4 * wq + x / 4) + 12)
      rw [show pos + 16 * (y / 4 * wq + x / 4) + 12 + 1
          = pos + 16 * (y / 4 * wq + x / 4) + 13 by omega,
        show pos + 16 * (y / 4 * wq + x / 4) + 12 + 2
          = pos + 16 * (y / 4 * wq + x / 4) + 14 by omega,
        show pos + 16 * (y / 4 * wq + x / 4) + 12 + 3
          = pos + 16 * (y / 4 * wq + x / 4) + 15 by omega] at h2
      exact h2
    rw [ha0, ha1, hasel, hcc0, hcc1, hcsel] at hlook
    have hw4 : h.width / 4 = wq := by omega
    rw [hw4]
    exact hlook
  · intro bx hbx q p hp
    rcases List.mem_map.mp hbx with ⟨ab, hab, rfl⟩
    obtain ⟨hah, haw, hane⟩ := hl2 ab hab
    obtain ⟨ii, jj, c, hii, hjj, hc, hfst⟩ := wDXT5_fst _ _ _ _ p hp
    dsimp only at hfst
    rw [hfst]
    intro heq
    have hxb : 4 * ab.2 + jj < h.width := by omega
    obtain ⟨e1, e2, e3⟩ := pixIndex_inj (gdkRowstride 4 h.width) h.width
      (by rw [gdkRowstride4]) hxb hx hc hch heq
    apply hane
    have ha1 : ab.1 = y / 4 := by omega
    have ha2 : ab.2 = x / 4 := by omega
    rw [← ha1, ← ha2]

/-- Claim C5 witness: 4x4 DXT5 texture over an all-zero buffer, pixel
(0,0), channel 3. -/
theorem claim_C5_dxt5_block_decode_witness :
    framePixels (gdk_pixbuf__vtf_load_frame c5WitnessHeader zeroBuf 0)
        (gdkRowstride 4 c5WitnessHeader.width * 0 + 4 * 0 + 3)
      = some (if 3 = 3 then
          dxt5Alpha (zeroBuf (0 + 16 * (0 / 4 * (c5WitnessHeader.width / 4) + 0 / 4)))
            (zeroBuf (0 + 16 * (0 / 4 * (c5WitnessHeader.width / 4) + 0 / 4) + 1))
            ((le48 zeroBuf (0 + 16 * (0 / 4 * (c5WitnessHeader.width / 4) + 0 / 4) + 2)
                >>> (3 * (4 * (0 % 4) + 0 % 4))) &&& 7)
        else
          rgbChannel
            (dxt5ColorPalette
              (le16 zeroBuf (0 + 16 * (0 / 4 * (c5WitnessHeader.width / 4) + 0 / 4) + 8))
              (le16 zeroBuf (0 + 16 * (0 / 4 * (c5WitnessHeader.width / 4) + 0 / 4) + 10))
              ((le32 zeroBuf (0 + 16 * (0 / 4 * (c5WitnessHeader.width / 4) + 0 / 4) + 12)
                  >>> (2 * (4 * (0 % 4) + 0 % 4))) &&& 3)) 3) :=
  claim_C5_dxt5_block_decode c5WitnessHeader zeroBuf 0 0 0 3 rfl
    (fun _ => Nat.zero_lt_succ 255) (by decide) (by decide) (by decide) (by decide)
    (by decide)

/-- Claim C8 evaluated at the failing input: a 1x1 ARGB8888 frame with
pixel bytes A=1, R=2, G=3, B=4.  The code stores the four bytes into
channels 1, 2, 3, 0 in read order, so the output is R=4, G=1, B=2, A=3 —
the first byte (A=1) lands in the green channel, not in the alpha channel
as the claim requires (the last conjunct refutes the claim). -/
theorem claim_C8_argb_channel_rotation :
    framePixels (gdk_pixbuf__vtf_load_frame c8Header c8Buf 0) 0 = some 4
    ∧ framePixels (gdk_pixbuf__vtf_load_frame c8Header c8Buf 0) 1 = some 1
    ∧ framePixels (gdk_pixbuf__vtf_load_frame c8Header c8Buf 0) 2 = some 2
    ∧ framePixels (gdk_pixbuf__vtf_load_frame c8Header c8Buf 0) 3 = some 3
    ∧ ¬ framePixels (gdk_pixbuf__vtf_load_frame c8Header c8Buf 0) 3 = some 1 := by
  refine ⟨by decide, by decide, by decide, by decide, by decide⟩

/-! ## stop_load lemmas -/

theorem normalize_fields (h : VtfHeader) :
    (normalizeVtfHeader h).frames = h.frames
    ∧ (normalizeVtfHeader h).highResImageFormat = h.highResImageFormat
    ∧ (normalizeVtfHeader h).width = h.width
    ∧ (normalizeVtfHeader h).height = h.height := by
  unfold normalizeVtfHeader
  split <;> exact ⟨rfl, rfl, rfl, rfl⟩

theorem load_frame_ok_of_supported (h : VtfHeader) (buf : Nat → Nat) (pos : Nat)
    (hsup : supportedVtfFormat h.highResImageFormat = true) :
    ∃ fr, gdk_pixbuf__vtf_load_frame h buf pos = .ok fr := by
  simp only [supportedVtfFormat, Bool.or_eq_true, beq_iff_eq] at hsup
  unfold gdk_pixbuf__vtf_load_frame
  by_cases h0 : h.highResImageFormat = IMAGE_FORMAT_RGBA8888
  · rw [if_pos h0]; exact ⟨_, rfl⟩
  rw [if_neg h0]
  by_cases h1 : h.highResImageFormat = IMAGE_FORMAT_ABGR8888
  · rw [if_pos h1]; exact ⟨_, rfl⟩
  rw [if_neg h1]
  by_cases h2 : h.highResImageFormat = IMAGE_FORMAT_RGB888
  · rw [if_pos h2]; exact ⟨_, rfl⟩
  rw [if_neg h2]
  by_cases h3 : h.highResImageFormat = IMAGE_FORMAT_BGR888
  · rw [if_pos h3]; exact ⟨_, rfl⟩
  rw [if_neg h3]
  by_cases h4 : h.highResImageFormat = IMAGE_FORMAT_RGB565
  · rw [if_pos h4]; exact ⟨_, rfl⟩
  rw [if_neg h4]
  by_cases h5 : h.highResImageFormat = IMAGE_FORMAT_I8
  · rw [if_pos h5]; exact ⟨_, rfl⟩
  rw [if_neg h5]
  by_cases h6 : h.highResImageFormat = IMAGE_FORMAT_IA88
  · rw [if_pos h6]; exact ⟨_, rfl⟩
  rw [if_neg h6]
  by_cases h8 : h.highResImageFormat = IMAGE_FORMAT_A8
  · rw [if_pos h8]; exact ⟨_, rfl⟩
  rw [if_neg h8]
  by_cases h13 : h.highResImageFormat = IMAGE_FORMAT_DXT1
  · rw [if_pos h13]; exact ⟨_, rfl⟩
  rw [if_neg h13]
  by_cases h15 : h.highResImageFormat = IMAGE_FORMAT_DXT5
  · rw [if_pos h15]; exact ⟨_, rfl⟩
  rw [if_neg h15]
  by_cases h11 : h.highResImageFormat = IMAGE_FORMAT_ARGB8888
  · rw [if_pos h11]; exact ⟨_, rfl⟩
  rw [if_neg h11]
  by_cases h12 : h.highResImageFormat = IMAGE_FORMAT_BGRA8888
  · rw [if_pos h12]; exact ⟨_, rfl⟩
  tauto

theorem load_frame_unsupported (h : VtfHeader) (buf : Nat → Nat) (pos : Nat)
    (hsup : supportedVtfFormat h.highResImageFormat = false) :
    gdk_pixbuf__vtf_load_frame h buf pos = .unsupported h.highResImageFormat := by
  simp only [supportedVtfFormat, Bool.or_eq_false_iff, beq_eq_false_iff_ne,
    ne_eq] at hsup
  obtain ⟨⟨⟨⟨⟨⟨⟨⟨⟨⟨⟨n0, n1⟩, n2⟩, n3⟩, n4⟩, n5⟩, n6⟩, n8⟩, n13⟩, n15⟩, n11⟩, n12⟩ := hsup
  unfold gdk_pixbuf__vtf_load_frame
  rw [if_neg n0, if_neg n1, if_neg n2, if_neg n3, if_neg n4, if_neg n5, if_neg n6,
    if_neg n8, if_neg n13, if_neg n15, if_neg n11, if_neg n12]

theorem flatMap_singleton_map {α β : Type} (f : α → β) (l : List α) :
    (l.flatMap fun x => [f x]) = l.map f := by
  induction l with
  | nil => rfl
  | cons x xs ih => simp [ih]

theorem range_succ_map {α : Type} (F : Nat → α) (i m : Nat) :
    (List.range (m + 1)).map (fun k => F (i + k))
      = F i :: (List.range m).map (fun k => F (i + 1 + k)) := by
  rw [List.range_succ_eq_map, List.map_cons, List.map_map]
  congr 1
  apply List.map_congr_left
  intro k _
  simp only [Function.comp]
  congr 1
  omega

theorem range_succ_flatMap {α : Type} (F : Nat → List α) (i m : Nat) :
    (List.range (m + 1)).flatMap (fun k => F (i + k))
      = F i ++ (List.range m).flatMap (fun k => F (i + 1 + k)) := by
  rw [List.range_succ_eq_map, List.flatMap_cons, List.flatMap_map]
  congr 1
  apply List.flatMap_congr
  intro k _
  congr 1
  omega

/-- With a supported format every frame decodes: the loop returns the
frames in increasing index order, the event trace (decode events in
order, `prepared` right after frame 0's decode), nothing printed, no
error. -/
theorem vtfFrameLoop_supported (h : VtfHeader) (buf : Nat → Nat) (base : Nat)
    (hsup : supportedVtfFormat h.highResImageFormat = true) :
    ∀ n i, vtfFrameLoop h buf base i n
      = ((List.range n).map (fun k => vtfDecodedFrame h buf base (i + k)),
         (List.range n).flatMap
           (fun k => VtfEvent.decoded (i + k)
             :: (if i + k = 0 then [VtfEvent.prepared 0] else [])),
         [], none) := by
  intro n
  induction n with
  | zero => intro i; simp [vtfFrameLoop]
  | succ m ih =>
    intro i
    obtain ⟨fr, hfr⟩ :=
      load_frame_ok_of_supported h buf (u32 (base + vtf_offset h i 0 0 0)) hsup
    have hfr' : vtfDecodedFrame h buf base i = fr := by
      unfold vtfDecodedFrame
      rw [hfr]
    rw [vtfFrameLoop, hfr, ih (i + 1)]
    rw [range_succ_map (fun k => vtfDecodedFrame h buf base k) i m,
      range_succ_flatMap
        (fun k => VtfEvent.decoded k :: (if k = 0 then [VtfEvent.prepared 0] else []))
        i m]
    rw [hfr']

/-- With an unsupported format the loop fails on its first frame: no
frames, no events, the format printed, the fixed error. -/
theorem vtfFrameLoop_unsupported (h : VtfHeader) (buf : Nat → Nat) (base : Nat)
    (hsup : supportedVtfFormat h.highResImageFormat = false) (n i : Nat)
    (hn : n ≠ 0) :
    vtfFrameLoop h buf base i n
      = ([], [], [h.highResImageFormat], some vtfCantReadError) := by
  obtain ⟨m, rfl⟩ : ∃ m, n = m + 1 := ⟨n - 1, by omega⟩
  rw [vtfFrameLoop,
    load_frame_unsupported h buf (u32 (base + vtf_offset h i 0 0 0)) hsup]

/-- A buffer passing the signature / frame-count check reaches the frame
loop with the normalised header and the wrap-around base, and returns
TRUE regardless of the loop outcome. -/
theorem stop_load_goodHeader (b : List Nat) (hsig : sigOk (parseVtfHeader b))
    (hfr : (parseVtfHeader b).frames ≠ 0) :
    gdk_pixbuf__vtf_image_stop_load b
      = (match vtfFrameLoop (normalizeVtfHeader (parseVtfHeader b)) (vtfBufFn b)
            (vtfBase b) 0 (normalizeVtfHeader (parseVtfHeader b)).frames with
         | (fs, es, ps, err) =>
           { retval := true, error := err, frames := fs, events := es,
             printed := ps }) := by
  unfold gdk_pixbuf__vtf_image_stop_load
  rw [if_neg]
  · rfl
  · unfold sigOk at hsig
    push_neg
    exact ⟨hsig.1, hsig.2.1, hsig.2.2.1, hsig.2.2.2, hfr⟩

/-- The event trace of a full supported decode of `m + 1` frames. -/
theorem decode_events_zero (m : Nat) :
    (List.range (m + 1)).flatMap
        (fun k => VtfEvent.decoded (0 + k)
          :: (if 0 + k = 0 then [VtfEvent.prepared 0] else []))
      = VtfEvent.decoded 0 :: VtfEvent.prepared 0
        :: (List.range m).map (fun k => VtfEvent.decoded (k + 1)) := by
  rw [range_succ_flatMap
    (fun k => VtfEvent.decoded k :: (if k = 0 then [VtfEvent.prepared 0] else []))
    0 m]
  simp only [if_pos rfl]
  rw [show ((List.range m).flatMap fun k =>
      VtfEvent.decoded (0 + 1 + k)
        :: (if 0 + 1 + k = 0 then [VtfEvent.prepared 0] else []))
      = (List.range m).flatMap fun k => [VtfEvent.decoded (k + 1)] from
    List.flatMap_congr (by
      intro k _
      rw [if_neg (by omega)]
      congr 2
      omega)]
  rw [flatMap_singleton_map]
  rfl

/-- Claim C6: a buffer whose first four bytes are not `V`,`T`,`F`,`0` or
whose frames field is zero fails with the CorruptContainer error
(`GDK_PIXBUF_ERROR_CORRUPT_IMAGE`, "File corrupt or incomplete"), retval
FALSE, and produces zero frames; and these are the only up-front
validations — every other buffer proceeds to decoding with retval TRUE. -/
theorem claim_C6_signature_and_frames_check (b : List Nat) :
    (¬ sigOk (parseVtfHeader b) ∨ (parseVtfHeader b).frames = 0 →
      gdk_pixbuf__vtf_image_stop_load b
        = ⟨false, some vtfCorruptError, [], [], []⟩)
    ∧ ((gdk_pixbuf__vtf_image_stop_load b).retval = false →
      ¬ sigOk (parseVtfHeader b) ∨ (parseVtfHeader b).frames = 0) := by
  constructor
  · intro hbad
    unfold gdk_pixbuf__vtf_image_stop_load
    rw [if_pos]
    unfold sigOk at hbad
    tauto
  · intro hret
    by_cases hsig : sigOk (parseVtfHeader b)
    · by_cases hfr : (parseVtfHeader b).frames = 0
      · exact Or.inr hfr
      · exfalso
        rw [stop_load_goodHeader b hsig hfr] at hret
        rcases hloop : vtfFrameLoop (normalizeVtfHeader (parseVtfHeader b))
            (vtfBufFn b) (vtfBase b) 0 (normalizeVtfHeader (parseVtfHeader b)).frames
          with ⟨fs, es, ps, err⟩
        rw [hloop] at hret
        simp at hret
    · exact Or.inl hsig

/-- Claim C6 witness: the buffer `86,84,70,7,...` (fourth signature byte
wrong) is rejected with the corrupt-container outcome. -/
theorem claim_C6_signature_and_frames_check_witness :
    gdk_pixbuf__vtf_image_stop_load c6BadBuffer
      = ⟨false, some vtfCorruptError, [], [], []⟩ :=
  (claim_C6_signature_and_frames_check c6BadBuffer).1 (by decide)

/-- Claim C10: `stop_load` returns FALSE exactly when the signature or
zero-frames validation fails; when the header passes but the frame decode
fails on an unsupported format, it still returns TRUE while setting the
error. -/
theorem claim_C10_retval_policy (b : List Nat) :
    ((gdk_pixbuf__vtf_image_stop_load b).retval = false
      ↔ (¬ sigOk (parseVtfHeader b) ∨ (parseVtfHeader b).frames = 0))
    ∧ (sigOk (parseVtfHeader b) → (parseVtfHeader b).frames ≠ 0 →
        supportedVtfFormat (parseVtfHeader b).highResImageFormat = false →
        (gdk_pixbuf__vtf_image_stop_load b).retval = true
          ∧ (gdk_pixbuf__vtf_image_stop_load b).error = some vtfCantReadError) := by
  constructor
  · constructor
    · intro hret
      by_cases hsig : sigOk (parseVtfHeader b)
      · by_cases hfr : (parseVtfHeader b).frames = 0
        · exact Or.inr hfr
        · exfalso
          rw [stop_load_goodHeader b hsig hfr] at hret
          rcases hloop : vtfFrameLoop (normalizeVtfHeader (parseVtfHeader b))
              (vtfBufFn b) (vtfBase b) 0
              (normalizeVtfHeader (parseVtfHeader b)).frames
            with ⟨fs, es, ps, err⟩
          rw [hloop] at hret
          simp at hret
      · exact Or.inl hsig
    · intro hbad
      unfold gdk_pixbuf__vtf_image_stop_load
      rw [if_pos]
      unfold sigOk at hbad
      tauto
  · intro hsig hfr hsup
    rw [stop_load_goodHeader b hsig hfr]
    rw [vtfFrameLoop_unsupported _ _ _
      (by rw [(normalize_fields (parseVtfHeader b)).2.1]; exact hsup) _ 0
      (by rw [(normalize_fields (parseVtfHeader b)).1]; exact hfr)]
    exact ⟨rfl, rfl⟩

/-- Claim C10 witness: the unsupported-format buffer `c7Buffer` (format
99) makes `stop_load` return TRUE with the error set. -/
theorem claim_C10_retval_policy_witness :
    (gdk_pixbuf__vtf_image_stop_load c7Buffer).retval = true
      ∧ (gdk_pixbuf__vtf_image_stop_load c7Buffer).error = some vtfCantReadError :=
  (claim_C10_retval_policy c7Buffer).2 (by decide) (by decide) (by decide)

/-- Claim C7 (amended): an unsupported `highResImageFormat` aborts the
decode with zero frames and no events, the numeric format value printed
to stdout (not placed in the error), and the error being the same
`GDK_PIXBUF_ERROR_CORRUPT_IMAGE` code as the corrupt-container error with
the fixed message "Can't read this yet." — distinguishable from
CorruptContainer only by that message text. -/
theorem claim_C7_unsupported_format (b : List Nat)
    (hsig : sigOk (parseVtfHeader b)) (hfr : (parseVtfHeader b).frames ≠ 0)
    (hsup : supportedVtfFormat (parseVtfHeader b).highResImageFormat = false) :
    gdk_pixbuf__vtf_image_stop_load b
      = ⟨true, some vtfCantReadError, [], [],
         [(parseVtfHeader b).highResImageFormat]⟩
    ∧ vtfCantReadError.code = GDK_PIXBUF_ERROR_CORRUPT_IMAGE
    ∧ vtfCantReadError.message ≠ vtfCorruptError.message := by
  refine ⟨?_, rfl, by decide⟩
  rw [stop_load_goodHeader b hsig hfr,
    vtfFrameLoop_unsupported _ _ _
      (by rw [(normalize_fields (parseVtfHeader b)).2.1]; exact hsup) _ 0
      (by rw [(normalize_fields (parseVtfHeader b)).1]; exact hfr)]
  rw [(normalize_fields (parseVtfHeader b)).2.1]

/-- Claim C7 witness: a concrete well-formed buffer declaring format 99. -/
theorem claim_C7_unsupported_format_witness :
    gdk_pixbuf__vtf_image_stop_load c7Buffer
      = ⟨true, some vtfCantReadError, [], [],
         [(parseVtfHeader c7Buffer).highResImageFormat]⟩
    ∧ vtfCantReadError.code = GDK_PIXBUF_ERROR_CORRUPT_IMAGE
    ∧ vtfCantReadError.message ≠ vtfCorruptError.message :=
  claim_C7_unsupported_format c7Buffer (by decide) (by decide) (by decide)

/-- Claim C7 counterexample: two well-formed buffers declaring different
unsupported formats (99 and 100) produce the *same* error — so the error
cannot include the offending numeric format value (which is printed to
stdout instead, as the differing `printed` components show) — and that
error carries the same `GDK_PIXBUF_ERROR_CORRUPT_IMAGE` code as the
corrupt-container error. -/
theorem claim_C7_counterexample :
    (gdk_pixbuf__vtf_image_stop_load c7Buffer).error
        = (gdk_pixbuf__vtf_image_stop_load c7bBuffer).error
    ∧ (gdk_pixbuf__vtf_image_stop_load c7Buffer).error = some vtfCantReadError
    ∧ (gdk_pixbuf__vtf_image_stop_load c7Buffer).printed = [99]
    ∧ (gdk_pixbuf__vtf_image_stop_load c7bBuffer).printed = [100]
    ∧ (gdk_pixbuf__vtf_image_stop_load c7Buffer).frames = []
    ∧ vtfCantReadError.code = vtfCorruptError.code := by
  refine ⟨by decide, by decide, by decide, by decide, rfl, rfl⟩

/-- Claim C3 (amended): the decoder performs no bounds verification
before slicing frame bytes — for every buffer passing the header checks
with a supported format, decoding proceeds to completion with retval
TRUE, no error, and one frame per declared frame, regardless of whether
the computed data region fits in the buffer. -/
theorem claim_C3_no_bounds_check (b : List Nat)
    (hsig : sigOk (parseVtfHeader b)) (hfr : (parseVtfHeader b).frames ≠ 0)
    (hsup : supportedVtfFormat (parseVtfHeader b).highResImageFormat = true) :
    (gdk_pixbuf__vtf_image_stop_load b).retval = true
    ∧ (gdk_pixbuf__vtf_image_stop_load b).error = none
    ∧ (gdk_pixbuf__vtf_image_stop_load b).frames.length
        = (parseVtfHeader b).frames := by
  rw [stop_load_goodHeader b hsig hfr,
    vtfFrameLoop_supported _ _ _
      (by rw [(normalize_fields (parseVtfHeader b)).2.1]; exact hsup)
      (normalizeVtfHeader (parseVtfHeader b)).frames 0]
  refine ⟨rfl, rfl, ?_⟩
  show ((List.range (normalizeVtfHeader (parseVtfHeader b)).frames).map _).length = _
  rw [List.length_map, List.length_range, (normalize_fields (parseVtfHeader b)).1]

/-- Claim C3 witness: the bounds-exceeding buffer `c3Buffer` also
satisfies the theorem (decode proceeds and delivers the declared frame). -/
theorem claim_C3_no_bounds_check_witness :
    (gdk_pixbuf__vtf_image_stop_load c3Buffer).retval = true
    ∧ (gdk_pixbuf__vtf_image_stop_load c3Buffer).error = none
    ∧ (gdk_pixbuf__vtf_image_stop_load c3Buffer).frames.length
        = (parseVtfHeader c3Buffer).frames :=
  claim_C3_no_bounds_check c3Buffer (by decide) (by decide) (by decide)

/-- Claim C3 counterexample: `c3Buffer` declares a 16x16 RGBA8888 frame
(1024 bytes of pixel data) but is only 57 bytes long — the computed
high-resolution region exceeds the actual buffer length — yet the decode
does not fail with CorruptContainer: it returns TRUE with no error and
delivers one frame (the C code reads out of bounds here; in the model
out-of-range reads yield 0). -/
theorem claim_C3_counterexample :
    c3Buffer.length
      < vtf_offset (normalizeVtfHeader (parseVtfHeader c3Buffer)) 0 0 0 (-1)
    ∧ (gdk_pixbuf__vtf_image_stop_load c3Buffer).retval = true
    ∧ (gdk_pixbuf__vtf_image_stop_load c3Buffer).error = none
    ∧ (gdk_pixbuf__vtf_image_stop_load c3Buffer).frames.length = 1 := by
  refine ⟨by decide, rfl, by decide, by decide⟩

/-- Claim C9: for a buffer passing the header checks, when the format is
supported the event trace is exactly `decoded 0, prepared 0, decoded 1,
..., decoded (n-1)` — the frame-ready notification fires exactly once,
referencing frame 0, after frame 0's decode and before any later frame's
— and the delivered sequence has one frame per index in increasing
order; when a frame decode fails (unsupported format, which fails at
frame 0), nothing is delivered and no notification fires. -/
theorem claim_C9_frame_sequence (b : List Nat)
    (hsig : sigOk (parseVtfHeader b)) (hfr : (parseVtfHeader b).frames ≠ 0) :
    (supportedVtfFormat (parseVtfHeader b).highResImageFormat = true →
      (gdk_pixbuf__vtf_image_stop_load b).events
        = VtfEvent.decoded 0 :: VtfEvent.prepared 0
          :: (List.range ((parseVtfHeader b).frames - 1)).map
               (fun k => VtfEvent.decoded (k + 1))
      ∧ (gdk_pixbuf__vtf_image_stop_load b).frames
          = (List.range ((parseVtfHeader b).frames)).map
              (fun k => vtfDecodedFrame (normalizeVtfHeader (parseVtfHeader b))
                (vtfBufFn b) (vtfBase b) k))
    ∧ (supportedVtfFormat (parseVtfHeader b).highResImageFormat = false →
      (gdk_pixbuf__vtf_image_stop_load b).frames = []
      ∧ (gdk_pixbuf__vtf_image_stop_load b).events = []) := by
  constructor
  · intro hsup
    rw [stop_load_goodHeader b hsig hfr,
      vtfFrameLoop_supported _ _ _
        (by rw [(normalize_fields (parseVtfHeader b)).2.1]; exact hsup)
        (normalizeVtfHeader (parseVtfHeader b)).frames 0]
    obtain ⟨m, hm⟩ : ∃ m, (normalizeVtfHeader (parseVtfHeader b)).frames = m + 1 :=
      ⟨(normalizeVtfHeader (parseVtfHeader b)).frames - 1,
        by have h2 := (normalize_fields (parseVtfHeader b)).1; omega⟩
    have hm' : m = (parseVtfHeader b).frames - 1 := by
      have h2 := (normalize_fields (parseVtfHeader b)).1
      omega
    constructor
    · show (List.range (normalizeVtfHeader (parseVtfHeader b)).frames).flatMap _ = _
      rw [hm, decode_events_zero m, hm']
    · show (List.range (normalizeVtfHeader (parseVtfHeader b)).frames).map _ = _
      rw [(normalize_fields (parseVtfHeader b)).1]
      apply List.map_congr_left
      intro k _
      rw [Nat.zero_add]
  · intro hsup
    rw [stop_load_goodHeader b hsig hfr,
      vtfFrameLoop_unsupported _ _ _
        (by rw [(normalize_fields (parseVtfHeader b)).2.1]; exact hsup) _ 0
        (by rw [(normalize_fields (parseVtfHeader b)).1]; exact hfr)]
    exact ⟨rfl, rfl⟩

/-- Claim C9 witness: the two-frame RGBA8888 buffer `c9Buffer` produces
the trace `decoded 0, prepared 0, decoded 1`. -/
theorem claim_C9_frame_sequence_witness :
    (gdk_pixbuf__vtf_image_stop_load c9Buffer).events
      = VtfEvent.decoded 0 :: VtfEvent.prepared 0
        :: (List.range ((parseVtfHeader c9Buffer).frames - 1)).map
             (fun k => VtfEvent.decoded (k + 1)) :=
  ((claim_C9_frame_sequence c9Buffer (by decide) (by decide)).1 (by decide)).1
